import Mathlib

/-!
# Siv3D foundation headers: `Optional`, `BinaryReader`, `Utility`, `Format`

A shallow embedding of `Programming Guide/Headers/Siv3D/Optional.hpp`, of the byte
reader declared in `BinaryReader.hpp`, and of the functions of `Utility.hpp` and
`Format.hpp` in the same directory.

The owning `Optional<Type>` is a presence flag `init_` next to a union
`storage_` that holds either the placeholder byte `dummy_` or a live
`Type value_`.  The header keeps the two in step by hand (placement `new`,
explicit destructor calls), so the embedding keeps both fields: a state in
which they disagree can be written down, and the operations that read
`storage_.value_` report it instead of inventing a value.

What the header leaves to `Type` is a parameter here:

* `Type`'s comparison operators and the state its move operations leave in
  their source are the fields of `TypeOps`;
* `Type`'s copy constructor and copy assignment produce the value of their
  source.
-/

namespace s3d

/-! ## Definitions -/

/-- How a call can end without a result: the exception `value()` throws, a failed
`assert`, a read of `storage_.value_` while no `Type` lives there, or a read through
the pointer of an `Optional<Type&>` whose object is gone. -/
inductive Fault where
  | bad_optional_access (what_arg : String)
  | assertion_failed
  | dead_storage
  | dangling_reference
  deriving DecidableEq, Repr

/-- The operations of the element type that the header calls but does not define:
`operator ==`, `!=`, `<`, `>`, `<=`, `>=` on `Type`, and the state in which
`Type`'s move constructor or move assignment leaves the object moved from. -/
structure TypeOps (T : Type) where
  eq : T → T → Bool
  ne : T → T → Bool
  lt : T → T → Bool
  gt : T → T → Bool
  le : T → T → Bool
  ge : T → T → Bool
  moved_from : T → T

/-- The tag type `nullopt_t`; its only values are `nullopt` and `none`. -/
inductive nullopt_t where
  | nullopt
  deriving DecidableEq, Repr

/-- The union `storage_t<Type>` (and `constexpr_storage_t<Type>`, which has the same
members): either the `dummy_` byte or a live `value_`. -/
inductive storage_t (T : Type) where
  | dummy_ : storage_t T
  | value_ (v : T) : storage_t T
  deriving DecidableEq, Repr

/-- Whether the union currently holds a live `Type`. -/
def storage_t.live {T : Type} : storage_t T → Bool
  | .dummy_ => false
  | .value_ _ => true

/-- The base `Optional_base<Type>` (and `constexpr_Optional_base<Type>`, same fields). -/
structure Optional_base (T : Type) where
  init_ : Bool
  storage_ : storage_t T
  deriving DecidableEq, Repr

/-- The class `Optional<Type>`, which derives from `OptionalBase<Type>` and adds no
field. -/
structure Optional (T : Type) extends Optional_base T
  deriving DecidableEq, Repr

/-- The representation invariant: `storage_` holds a live `Type` exactly when `init_`
is set. -/
def Optional.wf {T : Type} (o : Optional T) : Prop :=
  o.storage_.live = o.init_

instance {T : Type} (o : Optional T) : Decidable o.wf := by
  unfold Optional.wf; infer_instance

/-- `detail_::convert<U>(U v)`: returns its argument. -/
def detail_.convert {U : Type} (v : U) : U := v

/-- `Optional::initialized()`. -/
def Optional.initialized {T : Type} (o : Optional T) : Bool := o.init_

/-- `Optional::contained_val()`: `storage_.value_`, which is there to read only
when a `Type` lives in the union. -/
def Optional.contained_val {T : Type} (o : Optional T) : Except Fault T :=
  match o.storage_ with
  | .value_ v => .ok v
  | .dummy_ => .error .dead_storage

/-- `Optional::clear()`: run the destructor of the held value if `initialized()`,
then clear the flag. -/
def Optional.clear {T : Type} (o : Optional T) : Optional T :=
  { init_ := false
    storage_ := if o.initialized then .dummy_ else o.storage_ }

/-- `Optional::initialize(args...)`: `assert(!init_)`, construct the value in place,
set the flag.  `v` is the value `Type(args...)` constructs. -/
def Optional.initialize {T : Type} (o : Optional T) (v : T) : Except Fault (Optional T) :=
  if o.init_ then .error .assertion_failed
  else .ok { init_ := true, storage_ := .value_ v }

/-- `Optional()`: the default constructor. -/
def Optional.ctor_default {T : Type} : Optional T :=
  { init_ := false, storage_ := .dummy_ }

/-- `Optional(nullopt_t)`. -/
def Optional.ctor_nullopt {T : Type} (_n : nullopt_t) : Optional T :=
  { init_ := false, storage_ := .dummy_ }

/-- `Optional(const Type& v)`: the base is built with `init_(true), storage_(v)`. -/
def Optional.ctor_value {T : Type} (v : T) : Optional T :=
  { init_ := true, storage_ := .value_ v }

/-- `Optional(Type&& v)`: `init_(true), storage_(constexpr_move(v))`.  Returns the new
object and what is left in the argument. -/
def Optional.ctor_value_move {T : Type} (ops : TypeOps T) (v : T) : Optional T × T :=
  ({ init_ := true, storage_ := .value_ v }, ops.moved_from v)

/-- `explicit operator bool()`. -/
def Optional.operator_bool {T : Type} (o : Optional T) : Bool := o.initialized

/-- `Optional::has_value()`. -/
def Optional.has_value {T : Type} (o : Optional T) : Bool := o.initialized

/-- `Optional::operator*()`: `assert(initialized()); return contained_val();`. -/
def Optional.operator_star {T : Type} (o : Optional T) : Except Fault T :=
  if o.initialized then o.contained_val else .error .assertion_failed

/-- `Optional::value()`: throws `bad_optional_access` when not initialized, else
returns `contained_val()`. -/
def Optional.value {T : Type} (o : Optional T) : Except Fault T :=
  if !o.initialized then .error (.bad_optional_access "bad Optional access")
  else o.contained_val

/-- `Optional::value_or(V&& v) const&`:
`*this ? **this : detail_::convert<Type>(v)`; `conv` is the implicit conversion of
`V` to `Type` at the call of `convert<Type>`. -/
def Optional.value_or {T V : Type} (conv : V → T) (o : Optional T) (v : V) :
    Except Fault T :=
  if o.operator_bool then o.operator_star else .ok (detail_.convert (conv v))

/-- `Optional::value_or(V&& v) &&`:
`*this ? constexpr_move(contained_val()) : detail_::convert<Type>(v)`.  The result is
move-constructed from the held value; the second component is the object afterwards. -/
def Optional.value_or_rvalue {T V : Type} (ops : TypeOps T) (conv : V → T)
    (o : Optional T) (v : V) : Except Fault (T × Optional T) :=
  if o.operator_bool then
    match o.contained_val with
    | .ok x => .ok (x, { init_ := o.init_, storage_ := .value_ (ops.moved_from x) })
    | .error e => .error e
  else .ok (detail_.convert (conv v), o)

/-- `Optional::emplace(args...)`: `clear(); initialize(args...);`. -/
def Optional.emplace {T : Type} (o : Optional T) (v : T) : Except Fault (Optional T) :=
  Optional.initialize o.clear v

/-- `Optional::reset()`: `clear();`. -/
def Optional.reset {T : Type} (o : Optional T) : Optional T := o.clear

/-- `Optional::reset(const Type& v)`: `emplace(v);`. -/
def Optional.reset_value {T : Type} (o : Optional T) (v : T) : Except Fault (Optional T) :=
  o.emplace v

/-- `Optional& operator = (nullopt_t)`: `clear();`. -/
def Optional.assign_nullopt {T : Type} (o : Optional T) (_n : nullopt_t) : Optional T :=
  o.clear

/-- `Optional(const Optional& rhs)`: start empty; if `rhs.initialized()`, construct
`Type(*rhs)` in place and set the flag. -/
def Optional.ctor_copy {T : Type} (rhs : Optional T) : Except Fault (Optional T) :=
  if rhs.initialized then do
    let v ← rhs.operator_star
    pure { init_ := true, storage_ := .value_ v }
  else pure { init_ := false, storage_ := .dummy_ }

/-- `Optional(Optional&& rhs)`: start empty; if `rhs.initialized()`, construct
`Type(std::move(*rhs))` in place and set the flag.  Returns the new object and `rhs`
afterwards. -/
def Optional.ctor_move {T : Type} (ops : TypeOps T) (rhs : Optional T) :
    Except Fault (Optional T × Optional T) :=
  if rhs.initialized then do
    let v ← rhs.operator_star
    pure ({ init_ := true, storage_ := .value_ v },
          { init_ := rhs.init_, storage_ := .value_ (ops.moved_from v) })
  else pure ({ init_ := false, storage_ := .dummy_ }, rhs)

/-- `Optional& operator = (const Optional& rhs)`: the three-way case split of the
header; with both empty nothing happens.  `contained_val() = *rhs` is `Type`'s copy
assignment to the held value. -/
def Optional.assign_copy {T : Type} (o rhs : Optional T) : Except Fault (Optional T) :=
  if o.initialized == true && rhs.initialized == false then pure o.clear
  else if o.initialized == false && rhs.initialized == true then do
    let v ← rhs.operator_star
    Optional.initialize o v
  else if o.initialized == true && rhs.initialized == true then do
    let v ← rhs.operator_star
    let _ ← o.contained_val
    pure { init_ := o.init_, storage_ := .value_ v }
  else pure o

/-- `Optional& operator = (Optional&& rhs)`: as the copy assignment, with
`std::move(*rhs)`.  Returns the object and `rhs` afterwards. -/
def Optional.assign_move {T : Type} (ops : TypeOps T) (o rhs : Optional T) :
    Except Fault (Optional T × Optional T) :=
  if o.initialized == true && rhs.initialized == false then pure (o.clear, rhs)
  else if o.initialized == false && rhs.initialized == true then do
    let v ← rhs.operator_star
    let o1 ← Optional.initialize o v
    pure (o1, { init_ := rhs.init_, storage_ := .value_ (ops.moved_from v) })
  else if o.initialized == true && rhs.initialized == true then do
    let v ← rhs.operator_star
    let _ ← o.contained_val
    pure ({ init_ := o.init_, storage_ := .value_ v },
          { init_ := rhs.init_, storage_ := .value_ (ops.moved_from v) })
  else pure (o, rhs)

/-! ### Comparison of two `Optional`s -/

/-- `operator == (const Optional<Type>& x, const Optional<Type>& y)`. -/
def operator_eq {T : Type} (ops : TypeOps T) (x y : Optional T) : Except Fault Bool :=
  if x.operator_bool != y.operator_bool then pure false
  else if x.operator_bool == false then pure true
  else do
    let a ← x.operator_star
    let b ← y.operator_star
    pure (ops.eq a b)

/-- `operator != (const Optional<Type>& x, const Optional<Type>& y)`: `!(x == y)`. -/
def operator_ne {T : Type} (ops : TypeOps T) (x y : Optional T) : Except Fault Bool := do
  let r ← operator_eq ops x y
  pure (!r)

/-- `operator < (const Optional<Type>& x, const Optional<Type>& y)`:
`(!y) ? false : (!x) ? true : *x < *y`. -/
def operator_lt {T : Type} (ops : TypeOps T) (x y : Optional T) : Except Fault Bool :=
  if !y.operator_bool then pure false
  else if !x.operator_bool then pure true
  else do
    let a ← x.operator_star
    let b ← y.operator_star
    pure (ops.lt a b)

/-- `operator > (const Optional<Type>& x, const Optional<Type>& y)`: `(y < x)`. -/
def operator_gt {T : Type} (ops : TypeOps T) (x y : Optional T) : Except Fault Bool :=
  operator_lt ops y x

/-- `operator <= (const Optional<Type>& x, const Optional<Type>& y)`: `!(y < x)`. -/
def operator_le {T : Type} (ops : TypeOps T) (x y : Optional T) : Except Fault Bool := do
  let r ← operator_lt ops y x
  pure (!r)

/-- `operator >= (const Optional<Type>& x, const Optional<Type>& y)`: `!(x < y)`. -/
def operator_ge {T : Type} (ops : TypeOps T) (x y : Optional T) : Except Fault Bool := do
  let r ← operator_lt ops x y
  pure (!r)

/-! ### Comparison of an `Optional<Type>` with a `Type`

`_OV` is the overload `(const Optional<Type>& x, const Type& v)`, `_VO` the overload
`(const Type& v, const Optional<Type>& x)`. -/

/-- `x == v`: `static_cast<bool>(x) ? *x == v : false`. -/
def operator_eq_OV {T : Type} (ops : TypeOps T) (x : Optional T) (v : T) :
    Except Fault Bool :=
  if x.operator_bool then do let a ← x.operator_star; pure (ops.eq a v) else pure false

/-- `v == x`: `static_cast<bool>(x) ? v == *x : false`. -/
def operator_eq_VO {T : Type} (ops : TypeOps T) (v : T) (x : Optional T) :
    Except Fault Bool :=
  if x.operator_bool then do let a ← x.operator_star; pure (ops.eq v a) else pure false

/-- `x != v`: `static_cast<bool>(x) ? *x != v : true`. -/
def operator_ne_OV {T : Type} (ops : TypeOps T) (x : Optional T) (v : T) :
    Except Fault Bool :=
  if x.operator_bool then do let a ← x.operator_star; pure (ops.ne a v) else pure true

/-- `v != x`: `static_cast<bool>(x) ? v != *x : true`. -/
def operator_ne_VO {T : Type} (ops : TypeOps T) (v : T) (x : Optional T) :
    Except Fault Bool :=
  if x.operator_bool then do let a ← x.operator_star; pure (ops.ne v a) else pure true

/-- `x < v`: `static_cast<bool>(x) ? *x < v : true`. -/
def operator_lt_OV {T : Type} (ops : TypeOps T) (x : Optional T) (v : T) :
    Except Fault Bool :=
  if x.operator_bool then do let a ← x.operator_star; pure (ops.lt a v) else pure true

/-- `v > x`: `static_cast<bool>(x) ? v > *x : true`. -/
def operator_gt_VO {T : Type} (ops : TypeOps T) (v : T) (x : Optional T) :
    Except Fault Bool :=
  if x.operator_bool then do let a ← x.operator_star; pure (ops.gt v a) else pure true

/-- `x > v`: `static_cast<bool>(x) ? *x > v : false`. -/
def operator_gt_OV {T : Type} (ops : TypeOps T) (x : Optional T) (v : T) :
    Except Fault Bool :=
  if x.operator_bool then do let a ← x.operator_star; pure (ops.gt a v) else pure false

/-- `v < x`: `static_cast<bool>(x) ? v < *x : false`. -/
def operator_lt_VO {T : Type} (ops : TypeOps T) (v : T) (x : Optional T) :
    Except Fault Bool :=
  if x.operator_bool then do let a ← x.operator_star; pure (ops.lt v a) else pure false

/-- `x >= v`: `static_cast<bool>(x) ? *x >= v : false`. -/
def operator_ge_OV {T : Type} (ops : TypeOps T) (x : Optional T) (v : T) :
    Except Fault Bool :=
  if x.operator_bool then do let a ← x.operator_star; pure (ops.ge a v) else pure false

/-- `v <= x`: `static_cast<bool>(x) ? v <= *x : false`. -/
def operator_le_VO {T : Type} (ops : TypeOps T) (v : T) (x : Optional T) :
    Except Fault Bool :=
  if x.operator_bool then do let a ← x.operator_star; pure (ops.le v a) else pure false

/-- `x <= v`: `static_cast<bool>(x) ? *x <= v : true`. -/
def operator_le_OV {T : Type} (ops : TypeOps T) (x : Optional T) (v : T) :
    Except Fault Bool :=
  if x.operator_bool then do let a ← x.operator_star; pure (ops.le a v) else pure true

/-- `v >= x`: `static_cast<bool>(x) ? v >= *x : true`. -/
def operator_ge_VO {T : Type} (ops : TypeOps T) (v : T) (x : Optional T) :
    Except Fault Bool :=
  if x.operator_bool then do let a ← x.operator_star; pure (ops.ge v a) else pure true

/-- The operators of `int`, as an instance of `TypeOps`; moving from an `int` leaves
it as it was. -/
def intOps : TypeOps Int where
  eq a b := decide (a = b)
  ne a b := decide (a ≠ b)
  lt a b := decide (a < b)
  gt a b := decide (a > b)
  le a b := decide (a ≤ b)
  ge a b := decide (a ≥ b)
  moved_from a := a

/-- The operators of `std::string` that the examples need, as an instance of
`TypeOps`; a moved-from string is left empty. -/
def stringOps : TypeOps String where
  eq a b := decide (a = b)
  ne a b := decide (a ≠ b)
  lt a b := decide (a < b)
  gt a b := decide (b < a)
  le a b := !decide (b < a)
  ge a b := !decide (a < b)
  moved_from _ := ""

/-! ### Further members of the owning `Optional` -/

/-- `explicit Optional(in_place_t, Args&&... args)`: `init_(true)`, the value constructed
in place.  `v` is the value `Type(args...)` constructs. -/
def Optional.ctor_in_place {T : Type} (v : T) : Optional T :=
  { init_ := true, storage_ := .value_ v }

/-- `operator = (U&& v)` for `U` decaying to `Type`: assign to the held value if
`initialized()`, else `initialize(v)`. -/
def Optional.assign_value {T : Type} (o : Optional T) (v : T) : Except Fault (Optional T) :=
  if o.initialized then do
    let _ ← o.contained_val
    pure { init_ := o.init_, storage_ := .value_ v }
  else Optional.initialize o v

/-- `Optional::swap(Optional<Type>& rhs)`: the three-way case split of the header;
with both empty nothing happens.  `std::swap` on two `Type`s exchanges their values.
Returns the object and `rhs` afterwards. -/
def Optional.swap {T : Type} (ops : TypeOps T) (o rhs : Optional T) :
    Except Fault (Optional T × Optional T) :=
  if o.initialized == true && rhs.initialized == false then do
    let v ← o.operator_star
    let rhs1 ← Optional.initialize rhs v
    let o1 : Optional T := { init_ := o.init_, storage_ := .value_ (ops.moved_from v) }
    pure (o1.clear, rhs1)
  else if o.initialized == false && rhs.initialized == true then do
    let v ← rhs.operator_star
    let o1 ← Optional.initialize o v
    let rhs1 : Optional T := { init_ := rhs.init_, storage_ := .value_ (ops.moved_from v) }
    pure (o1, rhs1.clear)
  else if o.initialized == true && rhs.initialized == true then do
    let a ← o.operator_star
    let b ← rhs.operator_star
    pure ({ init_ := o.init_, storage_ := .value_ b },
          { init_ := rhs.init_, storage_ := .value_ a })
  else pure (o, rhs)

/-- `std::swap(s3d::Optional<Type>& x, s3d::Optional<Type>& y)`: `x.swap(y);`. -/
def std.swap {T : Type} (ops : TypeOps T) (x y : Optional T) :
    Except Fault (Optional T × Optional T) :=
  Optional.swap ops x y

/-- The states of an owning `Optional` that a program can bring about: the results of
the constructors, and from those the results of `emplace`, `reset`, the assignments and
`swap`, for both objects that an operation on two of them touches. -/
inductive Optional.Reachable {T : Type} (ops : TypeOps T) : Optional T → Prop where
  | ctor_default : Optional.Reachable ops Optional.ctor_default
  | ctor_nullopt (n : nullopt_t) : Optional.Reachable ops (Optional.ctor_nullopt n)
  | ctor_value (v : T) : Optional.Reachable ops (Optional.ctor_value v)
  | ctor_value_move (v : T) : Optional.Reachable ops (Optional.ctor_value_move ops v).1
  | ctor_in_place (v : T) : Optional.Reachable ops (Optional.ctor_in_place v)
  | ctor_copy {rhs o : Optional T} :
      Optional.Reachable ops rhs → Optional.ctor_copy rhs = .ok o →
      Optional.Reachable ops o
  | ctor_move_new {rhs o r : Optional T} :
      Optional.Reachable ops rhs → Optional.ctor_move ops rhs = .ok (o, r) →
      Optional.Reachable ops o
  | ctor_move_source {rhs o r : Optional T} :
      Optional.Reachable ops rhs → Optional.ctor_move ops rhs = .ok (o, r) →
      Optional.Reachable ops r
  | emplace {o o1 : Optional T} (v : T) :
      Optional.Reachable ops o → o.emplace v = .ok o1 → Optional.Reachable ops o1
  | reset {o : Optional T} : Optional.Reachable ops o → Optional.Reachable ops o.reset
  | reset_value {o o1 : Optional T} (v : T) :
      Optional.Reachable ops o → o.reset_value v = .ok o1 → Optional.Reachable ops o1
  | assign_nullopt {o : Optional T} (n : nullopt_t) :
      Optional.Reachable ops o → Optional.Reachable ops (o.assign_nullopt n)
  | assign_copy {o rhs o1 : Optional T} :
      Optional.Reachable ops o → Optional.Reachable ops rhs →
      o.assign_copy rhs = .ok o1 → Optional.Reachable ops o1
  | assign_move_this {o rhs o1 r1 : Optional T} :
      Optional.Reachable ops o → Optional.Reachable ops rhs →
      Optional.assign_move ops o rhs = .ok (o1, r1) → Optional.Reachable ops o1
  | assign_move_source {o rhs o1 r1 : Optional T} :
      Optional.Reachable ops o → Optional.Reachable ops rhs →
      Optional.assign_move ops o rhs = .ok (o1, r1) → Optional.Reachable ops r1
  | assign_value {o o1 : Optional T} (v : T) :
      Optional.Reachable ops o → o.assign_value v = .ok o1 → Optional.Reachable ops o1
  | swap_this {o rhs o1 r1 : Optional T} :
      Optional.Reachable ops o → Optional.Reachable ops rhs →
      Optional.swap ops o rhs = .ok (o1, r1) → Optional.Reachable ops o1
  | swap_other {o rhs o1 r1 : Optional T} :
      Optional.Reachable ops o → Optional.Reachable ops rhs →
      Optional.swap ops o rhs = .ok (o1, r1) → Optional.Reachable ops r1

/-- `Optional::then(std::function<void(Type&)> f)`: `if (initialized()) f(value());`.
A callback is a function of the value it is handed and of the state `σ` of the rest of
the program; it returns the value it leaves behind the reference and the new state. -/
def Optional.then {T σ : Type} (o : Optional T) (f : T → σ → T × σ) (w : σ) :
    Except Fault (Optional T × σ) :=
  if o.initialized then do
    let v ← o.value
    pure ({ init_ := o.init_, storage_ := .value_ (f v w).1 }, (f v w).2)
  else pure (o, w)

/-- `Optional::then(std::function<void(const Type&)> f) const`. -/
def Optional.then_const {T σ : Type} (o : Optional T) (f : T → σ → σ) (w : σ) :
    Except Fault σ :=
  if o.initialized then do
    let v ← o.value
    pure (f v w)
  else pure w

/-- `Optional::then(std::function<void(Type&)> f1, std::function<void()> f2)`:
`if (initialized()) f1(value()); else f2();`. -/
def Optional.then2 {T σ : Type} (o : Optional T) (f1 : T → σ → T × σ) (f2 : σ → σ)
    (w : σ) : Except Fault (Optional T × σ) :=
  if o.initialized then do
    let v ← o.value
    pure ({ init_ := o.init_, storage_ := .value_ (f1 v w).1 }, (f1 v w).2)
  else pure (o, f2 w)

/-- `Optional::then(std::function<void(const Type&)> f1, std::function<void()> f2)
const`. -/
def Optional.then2_const {T σ : Type} (o : Optional T) (f1 : T → σ → σ) (f2 : σ → σ)
    (w : σ) : Except Fault σ :=
  if o.initialized then do
    let v ← o.value
    pure (f1 v w)
  else pure (f2 w)

/-! ### The reference variant `Optional<Type&>`

It holds a pointer `Type* ref` to an object it does not own.  The objects live in a
`Memory`; the members take the memory along and return it, so that what they do to
the objects can be stated. -/

/-- The address of an object; the null pointer is `none : Option Addr`. -/
abbrev Addr := Nat

/-- The objects of type `Type` alive in the program, by address. -/
abbrev Memory (T : Type) := Addr → Option T

/-- The class `Optional<Type&>`: its one field is the pointer `ref`. -/
structure OptionalRef (T : Type) where
  ref : Option Addr
  deriving DecidableEq, Repr

/-- `Optional()` of the reference variant: `ref(nullptr)`. -/
def OptionalRef.ctor_default {T : Type} : OptionalRef T := { ref := none }

/-- `Optional(nullopt_t)` of the reference variant: `ref(nullptr)`. -/
def OptionalRef.ctor_nullopt {T : Type} (_n : nullopt_t) : OptionalRef T := { ref := none }

/-- `Optional(Type& v)`: `ref(detail_::static_addressof(v))`; `v` is the address of the
object the reference is bound to. -/
def OptionalRef.ctor_ref {T : Type} (v : Addr) : OptionalRef T := { ref := some v }

/-- `Optional(const Optional& rhs)` of the reference variant: `ref(rhs.ref)`. -/
def OptionalRef.ctor_copy {T : Type} (rhs : OptionalRef T) : OptionalRef T :=
  { ref := rhs.ref }

/-- `Optional& operator = (nullopt_t)` of the reference variant: `ref = nullptr;`. -/
def OptionalRef.assign_nullopt {T : Type} (m : Memory T) (_o : OptionalRef T)
    (_n : nullopt_t) : Memory T × OptionalRef T :=
  (m, { ref := none })

/-- `operator = (U&& rhs)` for `U` decaying to `Optional<Type&>`: `ref = rhs.ref;`. -/
def OptionalRef.assign {T : Type} (m : Memory T) (_o rhs : OptionalRef T) :
    Memory T × OptionalRef T :=
  (m, { ref := rhs.ref })

/-- `Optional<Type&>::emplace(Type& v)`: `ref = detail_::static_addressof(v);`. -/
def OptionalRef.emplace {T : Type} (m : Memory T) (_o : OptionalRef T) (v : Addr) :
    Memory T × OptionalRef T :=
  (m, { ref := some v })

/-- `Optional<Type&>::swap(Optional<Type&>& rhs)`: `std::swap(ref, rhs.ref);`. -/
def OptionalRef.swap {T : Type} (m : Memory T) (o rhs : OptionalRef T) :
    Memory T × OptionalRef T × OptionalRef T :=
  (m, { ref := rhs.ref }, { ref := o.ref })

/-- `explicit operator bool()` of the reference variant: `ref != nullptr`. -/
def OptionalRef.operator_bool {T : Type} (o : OptionalRef T) : Bool := o.ref != none

/-- `Optional<Type&>::has_value()`: `ref != nullptr`. -/
def OptionalRef.has_value {T : Type} (o : OptionalRef T) : Bool := o.ref != none

/-- `Optional<Type&>::value()`: throws `bad_optional_access` when `ref` is null, else
returns `*ref`. -/
def OptionalRef.value {T : Type} (m : Memory T) (o : OptionalRef T) : Except Fault T :=
  match o.ref with
  | none => .error (.bad_optional_access "bad Optional access")
  | some a =>
    match m a with
    | some v => .ok v
    | none => .error .dangling_reference

/-- `Optional<Type&>::reset()`: `*this = nullopt;`. -/
def OptionalRef.reset {T : Type} (m : Memory T) (o : OptionalRef T) :
    Memory T × OptionalRef T :=
  o.assign_nullopt m .nullopt

/-- `Optional<Type&>::reset(Type& v)`: `emplace(v);`. -/
def OptionalRef.reset_ref {T : Type} (m : Memory T) (o : OptionalRef T) (v : Addr) :
    Memory T × OptionalRef T :=
  o.emplace m v

/-- What `f(value())` does for a callback taking `Type&`: the callback gets the object
`ref` points to and may write to it. -/
def OptionalRef.call_on_value {T σ : Type} (m : Memory T) (o : OptionalRef T)
    (f : T → σ → T × σ) (w : σ) : Except Fault (Memory T × σ) := do
  let v ← o.value m
  match o.ref with
  | some a => pure (Function.update m a (some (f v w).1), (f v w).2)
  | none => pure (m, (f v w).2)

/-- `Optional<Type&>::then(std::function<void(Type&)> f)`:
`if (static_cast<bool>(*this)) f(value());`. -/
def OptionalRef.then {T σ : Type} (m : Memory T) (o : OptionalRef T)
    (f : T → σ → T × σ) (w : σ) : Except Fault (Memory T × σ) :=
  if o.operator_bool then o.call_on_value m f w else pure (m, w)

/-- `Optional<Type&>::then(std::function<void(const Type&)> f) const`. -/
def OptionalRef.then_const {T σ : Type} (m : Memory T) (o : OptionalRef T)
    (f : T → σ → σ) (w : σ) : Except Fault σ :=
  if o.operator_bool then do
    let v ← o.value m
    pure (f v w)
  else pure w

/-- `Optional<Type&>::then(std::function<void(Type&)> f1, std::function<void()> f2)`:
`if (static_cast<bool>(*this)) f1(value()); else f2();`. -/
def OptionalRef.then2 {T σ : Type} (m : Memory T) (o : OptionalRef T)
    (f1 : T → σ → T × σ) (f2 : σ → σ) (w : σ) : Except Fault (Memory T × σ) :=
  if o.operator_bool then o.call_on_value m f1 w else pure (m, f2 w)

/-- `Optional<Type&>::then(std::function<void(const Type&)> f1,
std::function<void()> f2) const`. -/
def OptionalRef.then2_const {T σ : Type} (m : Memory T) (o : OptionalRef T)
    (f1 : T → σ → σ) (f2 : σ → σ) (w : σ) : Except Fault σ :=
  if o.operator_bool then do
    let v ← o.value m
    pure (f1 v w)
  else pure (f2 w)

/-! ### `BinaryReader`

`BinaryReader.hpp` declares the members; their bodies are in the implementation class
`CBinaryReader`, which is not among the sources.  The definitions of this section
follow the contract of the byte reader in the specification (sections 3 and 4.2).
Positions and sizes are `int64` in the header and integers here. -/

/-- Modelled from the spec: the state of `BinaryReader`, whose implementation class
`CBinaryReader` is missing: the opened/closed state, the bytes of the source it is
bound to (their number is the total size), and the cursor, in bytes from the start. -/
structure BinaryReader where
  opened : Bool
  source : List UInt8
  pos : Int
  deriving DecidableEq, Repr

/-- Modelled from the spec: the invariant of the data model that the body of
`CBinaryReader` would maintain, `0 ≤ pos ≤ size`. -/
def BinaryReader.wf (r : BinaryReader) : Prop :=
  0 ≤ r.pos ∧ r.pos ≤ (r.source.length : Int)

instance (r : BinaryReader) : Decidable r.wf := by
  unfold BinaryReader.wf; infer_instance

/-- Modelled from the spec: the missing body of `BinaryReader::BinaryReader()`;
a reader is closed until it is opened. -/
def BinaryReader.ctor_default : BinaryReader :=
  { opened := false, source := [], pos := 0 }

/-- Modelled from the spec: the missing body of `BinaryReader::close`; "releases the
underlying resource and resets cursor/size to empty/zero". -/
def BinaryReader.close (_r : BinaryReader) : BinaryReader :=
  { opened := false, source := [], pos := 0 }

/-- Modelled from the spec: the missing body of `BinaryReader::open`; "binds to a byte
source; returns false (does not throw) on failure, leaving the reader closed".  The
argument is the content of the file at the path, `none` when it cannot be opened. -/
def BinaryReader.open (r : BinaryReader) (file : Option (List UInt8)) :
    Bool × BinaryReader :=
  match file with
  | some bytes => (true, { opened := true, source := bytes, pos := 0 })
  | none => (false, r.close)

/-- Modelled from the spec: the missing body of `BinaryReader::isOpened`. -/
def BinaryReader.isOpened (r : BinaryReader) : Bool := r.opened

/-- Modelled from the spec: the missing body of `BinaryReader::size`; "total byte
length of the source", zero on a closed reader. -/
def BinaryReader.size (r : BinaryReader) : Int :=
  if r.opened then (r.source.length : Int) else 0

/-- Modelled from the spec: the missing body of `BinaryReader::getPos`; the cursor,
zero on a closed reader. -/
def BinaryReader.getPos (r : BinaryReader) : Int :=
  if r.opened then r.pos else 0

/-- Modelled from the spec: the missing body of `BinaryReader::setPos`; "fails (returns
false, cursor unchanged) if `pos` is negative or exceeds `size()`", `pos == size()` is
accepted, and a closed reader reports failure. -/
def BinaryReader.setPos (r : BinaryReader) (pos : Int) : Bool × BinaryReader :=
  if !r.opened then (false, r)
  else if pos < 0 ∨ pos > r.size then (false, r)
  else (true, { r with pos := pos })

/-- Modelled from the spec: the missing body of `BinaryReader::skip`; "advances cursor
by `offset` bytes (clamped to `[0, size()]`) and returns the resulting absolute
position", zero and no change on a closed reader. -/
def BinaryReader.skip (r : BinaryReader) (offset : Int) : Int × BinaryReader :=
  if !r.opened then (0, r)
  else
    let p := max 0 (min (r.pos + offset) r.size)
    (p, { r with pos := p })

/-- Modelled from the spec: the missing body of `BinaryReader::read(void*, int64)`;
"reads up to `size` bytes starting at the current cursor into `buffer`, advances cursor
by the number of bytes actually read, returns that count", zero on a closed reader.
The result is the count, the bytes put into the buffer, and the reader afterwards. -/
def BinaryReader.read (r : BinaryReader) (size : Int) :
    Int × List UInt8 × BinaryReader :=
  if !r.opened then (0, [], r)
  else
    let bytes := (r.source.drop r.pos.toNat).take size.toNat
    ((bytes.length : Int), bytes, { r with pos := r.pos + (bytes.length : Int) })

/-- Modelled from the spec: the missing body of
`BinaryReader::read(void*, int64 pos, int64 size)`; "same as above but from an explicit
absolute position", "equivalent to `setPos(pos)` then `read`"; nothing is read when the
position is refused. -/
def BinaryReader.read_at (r : BinaryReader) (pos size : Int) :
    Int × List UInt8 × BinaryReader :=
  match r.setPos pos with
  | (true, r1) => r1.read size
  | (false, _) => (0, [], r)

/-- Modelled from the spec: the missing body of
`BinaryReader::lookahead(void*, int64) const`; "identical transfer semantics to `read`
but the cursor is guaranteed unchanged afterward": read, then put the cursor back. -/
def BinaryReader.lookahead (r : BinaryReader) (size : Int) :
    Int × List UInt8 × BinaryReader :=
  let saved := r.pos
  let (n, bytes, r1) := r.read size
  (n, bytes, { r1 with pos := saved })

/-- Modelled from the spec: the missing body of
`BinaryReader::lookahead(void*, int64 pos, int64 size) const`; the positional read,
then the cursor put back. -/
def BinaryReader.lookahead_at (r : BinaryReader) (pos size : Int) :
    Int × List UInt8 × BinaryReader :=
  let saved := r.pos
  let (n, bytes, r1) := r.read_at pos size
  (n, bytes, { r1 with pos := saved })

/-- Modelled from the spec: the missing body of `BinaryReader::readWhole`; "reads all
bytes from the current cursor to end-of-stream into a newly allocated owned buffer,
advancing the cursor to end"; an empty buffer on a closed reader. -/
def BinaryReader.readWhole (r : BinaryReader) : List UInt8 × BinaryReader :=
  if !r.opened then ([], r)
  else (r.source.drop r.pos.toNat, { r with pos := r.size })

/-- The ten bytes of the text `0123456789`. -/
def digits : List UInt8 := [48, 49, 50, 51, 52, 53, 54, 55, 56, 57]

/-- `BinaryReader::supportsLookahead() const`: `return true;`, in the header itself. -/
def BinaryReader.supportsLookahead (_r : BinaryReader) : Bool := true

/-! ### Pointer-like access of `Optional<Type&>` -/

/-- `Optional<Type&>::operator -> () const`: `assert(ref); return ref;`, the pointer. -/
def OptionalRef.operator_arrow {T : Type} (o : OptionalRef T) : Except Fault Addr :=
  match o.ref with
  | some a => .ok a
  | none => .error .assertion_failed

/-- `Optional<Type&>::operator * () const`: `assert(ref); return ref;`.  The header
returns the expression `ref`, the pointer, where the declared result is `Type&`; the
value of that expression is what this definition gives. -/
def OptionalRef.operator_star {T : Type} (o : OptionalRef T) : Except Fault Addr :=
  match o.ref with
  | some a => .ok a
  | none => .error .assertion_failed

/-- What a reference to an object gives when it is read: the object at the address. -/
def Memory.read {T : Type} (m : Memory T) (a : Addr) : Except Fault T :=
  match m a with
  | some v => .ok v
  | none => .error .dangling_reference

/-! ### `Utility.hpp`

`Type`'s `operator <`, `<=` and `==` are again the fields of `TypeOps`.  A sequence
container is the list of its elements, an iterator a position in it. -/

/-- What the algorithms of the standard library ask of `operator <`: a strict weak
ordering. -/
structure TypeOps.StrictWeak {T : Type} (ops : TypeOps T) : Prop where
  asymm : ∀ a b, ops.lt a b = true → ops.lt b a = false
  neg_trans : ∀ a b c, ops.lt a c = true → ops.lt a b = true ∨ ops.lt b c = true

/-- A total order: `<` is irreflexive and transitive, any two different values are
comparable, and `a <= b` is `!(b < a)`. -/
structure TypeOps.TotalOrder {T : Type} (ops : TypeOps T) : Prop where
  lt_irrefl : ∀ a, ops.lt a a = false
  lt_trans : ∀ a b c, ops.lt a b = true → ops.lt b c = true → ops.lt a c = true
  lt_total : ∀ a b, ops.lt a b = false → ops.lt b a = false → a = b
  le_iff : ∀ a b, ops.le a b = !ops.lt b a

/-- `Max(const Type& a, const Type& b)`: `(a < b) ? b : a`. -/
def Max {T : Type} (ops : TypeOps T) (a b : T) : T :=
  if ops.lt a b then b else a

/-- `Min(const Type& a, const Type& b)`: `(b < a) ? b : a`. -/
def Min {T : Type} (ops : TypeOps T) (a b : T) : T :=
  if ops.lt b a then b else a

/-- The loop of `std::max_element`: `largest` is the position of the greatest element so
far and `lv` its value, `first` the position of the next element;
`if (*largest < *first) largest = first;`. -/
def std.max_element_loop {T : Type} (ops : TypeOps T) (largest : Nat) (lv : T)
    (first : Nat) : List T → Nat
  | [] => largest
  | x :: rest =>
    if ops.lt lv x then std.max_element_loop ops first x (first + 1) rest
    else std.max_element_loop ops largest lv (first + 1) rest

/-- `std::max_element(first, last)` of the standard library, on the whole range: the
position it returns; on an empty range that is `last`. -/
def std.max_element {T : Type} (ops : TypeOps T) : List T → Nat
  | [] => 0
  | x :: rest => std.max_element_loop ops 0 x 1 rest

/-- The loop of `std::min_element`: `if (*first < *smallest) smallest = first;`. -/
def std.min_element_loop {T : Type} (ops : TypeOps T) (smallest : Nat) (sv : T)
    (first : Nat) : List T → Nat
  | [] => smallest
  | x :: rest =>
    if ops.lt x sv then std.min_element_loop ops first x (first + 1) rest
    else std.min_element_loop ops smallest sv (first + 1) rest

/-- `std::min_element(first, last)` of the standard library, on the whole range. -/
def std.min_element {T : Type} (ops : TypeOps T) : List T → Nat
  | [] => 0
  | x :: rest => std.min_element_loop ops 0 x 1 rest

/-- `Max(std::initializer_list<Type> ilist)`:
`*std::max_element(ilist.begin(), ilist.end())`; there is nothing to dereference at
`end()`, which is `none`. -/
def Max_ilist {T : Type} (ops : TypeOps T) (ilist : List T) : Option T :=
  ilist[std.max_element ops ilist]?

/-- `Min(std::initializer_list<Type> ilist)`:
`*std::min_element(ilist.begin(), ilist.end())`. -/
def Min_ilist {T : Type} (ops : TypeOps T) (ilist : List T) : Option T :=
  ilist[std.min_element ops ilist]?

/-- `Clamp(const Type& x, const Type& min, const Type& max)`:
`(x < min) ? min : ((max < x) ? max : x)`. -/
def Clamp {T : Type} (ops : TypeOps T) (x min max : T) : T :=
  if ops.lt x min then min else (if ops.lt max x then max else x)

/-- `InRange(const Type& x, const Type& min, const Type& max)`:
`(min <= x) && (x <= max)`. -/
def InRange {T : Type} (ops : TypeOps T) (x min max : T) : Bool :=
  ops.le min x && ops.le x max

/-- The loop of `std::remove_if` of the standard library, which works in place.  The
range is `out ++ stale ++ rest`: `out` are the elements kept so far, `rest` those still
to be looked at, `stale` what lies between.  A kept element is moved to the end of
`out` (`*first++ = std::move(*i)`), over the first stale element, and leaves its
moved-from state behind; while nothing was removed yet it stays where it is.  Returns
the range afterwards and the position of the new end. -/
def std.remove_if_loop {T : Type} (ops : TypeOps T) (pred : T → Bool)
    (out stale : List T) : List T → List T × Nat
  | [] => (out ++ stale, out.length)
  | x :: rest =>
    if pred x then std.remove_if_loop ops pred out (stale ++ [x]) rest
    else
      match stale with
      | [] => std.remove_if_loop ops pred (out ++ [x]) [] rest
      | _ :: st => std.remove_if_loop ops pred (out ++ [x]) (st ++ [ops.moved_from x]) rest

/-- `std::remove_if(first, last, pred)` on the whole range. -/
def std.remove_if {T : Type} (ops : TypeOps T) (pred : T → Bool) (c : List T) :
    List T × Nat :=
  std.remove_if_loop ops pred [] [] c

/-- A `const Type& val`: the reference is bound to an object outside the container,
whose value is `v`, or to the element of the container at the position `i`. -/
inductive ValRef (T : Type) where
  | outside (v : T)
  | element (i : Nat)
  deriving DecidableEq, Repr

/-- What a read through the reference gives while the range holds `range`; a position
past the end of the range denotes no object. -/
def ValRef.read {T : Type} (val : ValRef T) (range : List T) : Option T :=
  match val with
  | .outside v => some v
  | .element i => range[i]?

/-- The loop of `std::remove` of the standard library, which works in place like that
of `std::remove_if`.  Its condition is `*i == val` with `val` a reference, read anew for
every element; when `val` is bound to an element of the range it reads what the moves
made so far have left at that position.  `none` is a read through a reference that
denotes no object. -/
def std.remove_loop {T : Type} (ops : TypeOps T) (val : ValRef T)
    (out stale : List T) : List T → Option (List T × Nat)
  | [] => some (out ++ stale, out.length)
  | x :: rest =>
    match val.read (out ++ stale ++ x :: rest) with
    | none => none
    | some v =>
      if ops.eq x v then std.remove_loop ops val out (stale ++ [x]) rest
      else
        match stale with
        | [] => std.remove_loop ops val (out ++ [x]) [] rest
        | _ :: st => std.remove_loop ops val (out ++ [x]) (st ++ [ops.moved_from x]) rest

/-- `std::remove(first, last, val)` on the whole range. -/
def std.remove {T : Type} (ops : TypeOps T) (val : ValRef T) (c : List T) :
    Option (List T × Nat) :=
  std.remove_loop ops val [] [] c

/-- `Container::erase(first, last)` of a sequence container: the elements at the
positions from `first` up to `last` go. -/
def Container.erase {T : Type} (c : List T) (first last : Nat) : List T :=
  c.take first ++ c.drop last

/-- `Erase_if(Container& c, Pred pred)`:
`c.erase(std::remove_if(std::begin(c), std::end(c), pred), std::end(c));`. -/
def Erase_if {T : Type} (ops : TypeOps T) (c : List T) (pred : T → Bool) : List T :=
  let r := std.remove_if ops pred c
  Container.erase r.1 r.2 r.1.length

/-- `Erase(Container& c, const Type& val)`:
`c.erase(std::remove(std::begin(c), std::end(c), val), std::end(c));`. -/
def Erase {T : Type} (ops : TypeOps T) (c : List T) (val : ValRef T) : Option (List T) :=
  match std.remove ops val c with
  | some r => some (Container.erase r.1 r.2 r.1.length)
  | none => none

/-- The comparison operators of a floating-point `Type`, on a model of its values in
which `none` is a NaN and `some n` the number `n`: a comparison with a NaN is false,
except `!=`, which is true. -/
def nanOps : TypeOps (Option Int) where
  eq a b := match a, b with
    | some x, some y => decide (x = y)
    | _, _ => false
  ne a b := match a, b with
    | some x, some y => decide (x ≠ y)
    | _, _ => true
  lt a b := match a, b with
    | some x, some y => decide (x < y)
    | _, _ => false
  gt a b := match a, b with
    | some x, some y => decide (x > y)
    | _, _ => false
  le a b := match a, b with
    | some x, some y => decide (x ≤ y)
    | _, _ => false
  ge a b := match a, b with
    | some x, some y => decide (x ≥ y)
    | _, _ => false
  moved_from a := a

/-- The operators of `Type` with `<` read from right to left; `std::min_element` is
`std::max_element` for them. -/
def TypeOps.flip {T : Type} (ops : TypeOps T) : TypeOps T :=
  { ops with lt := fun a b => ops.lt b a }

/-! ### `Format.hpp`

`String` is the wide string of the library, `wchar` a character.  `detail::FormatInt`
and `ToString(double, int32)` come from headers that are not among the sources and are
the fields of `FormatEnv`; `D` and `F` stand for `double` and `float`, whose values are
only handed on.  The pack of arguments of `Format` is a list of `Arg`. -/

/-- `FormatData::DecimalPlace`: `int32 value`, which the constructor sets to 5 when no
width is given. -/
structure FormatData.DecimalPlace where
  value : Int := 5
  deriving DecidableEq, Repr

/-- `FormatData`: the string built so far and the decimal-place setting. -/
structure FormatData where
  string : String := ""
  decimalPlace : FormatData.DecimalPlace := {}
  deriving DecidableEq, Repr

/-- `DecimalPlace(int32 width)`: `FormatData::DecimalPlace(width)`. -/
def DecimalPlace (width : Int) : FormatData.DecimalPlace := { value := width }

/-- The functions that `Formatter` calls and the header does not define:
`detail::FormatInt(value)` as text, `ToString(double, int32)`, and the conversion
`static_cast<double>(float)`. -/
structure FormatEnv (D F : Type) where
  FormatInt : Int → String
  ToString : D → Int → String
  to_double : F → D

/-- One argument of `Format`, by the overload of `Formatter` that takes it.  An
`Optional<Type>` that holds `v` is `some v` and an empty one `none`; `range` is an
array, `std::array`, `std::vector`, `std::initializer_list` or `BoolArray` with its
elements; `streamed` is a value of any other type that can be written to a stream, with
the text `wos << value` gives.  The overloads that are only declared are left out. -/
inductive Arg (D F : Type) where
  | int32 (value : Int)
  | uint32 (value : Int)
  | int64 (value : Int)
  | uint64 (value : Int)
  | double (value : D)
  | nullptr
  | bool (value : Bool)
  | int8 (value : Int)
  | uint8 (value : Int)
  | char (value : Int)
  | int16 (value : Int)
  | uint16 (value : Int)
  | long (value : Int)
  | ulong (value : Int)
  | wchar (value : Char)
  | float (value : F)
  | decimalPlace (dp : FormatData.DecimalPlace)
  | cstr (str : String)
  | string (str : String)
  | optional (opt : Option (Arg D F))
  | nullopt (n : nullopt_t)
  | range (values : List (Arg D F))
  | streamed (text : String)

mutual
/-- `Formatter(FormatData& formatData, value)`, overload by overload. -/
def Formatter {D F : Type} (env : FormatEnv D F) (formatData : FormatData) :
    Arg D F → FormatData
  | .int32 value =>
    { formatData with string := formatData.string ++ env.FormatInt value }
  | .uint32 value =>
    { formatData with string := formatData.string ++ env.FormatInt value }
  | .int64 value =>
    { formatData with string := formatData.string ++ env.FormatInt value }
  | .uint64 value =>
    { formatData with string := formatData.string ++ env.FormatInt value }
  | .double value =>
    { formatData with
      string := formatData.string ++ env.ToString value formatData.decimalPlace.value }
  | .nullptr => { formatData with string := formatData.string ++ "null" }
  | .bool value =>
    { formatData with string := formatData.string ++ (if value then "true" else "false") }
  | .int8 value =>
    { formatData with string := formatData.string ++ env.FormatInt value }
  | .uint8 value =>
    { formatData with string := formatData.string ++ env.FormatInt value }
  | .char value =>
    { formatData with string := formatData.string ++ env.FormatInt value }
  | .int16 value =>
    { formatData with string := formatData.string ++ env.FormatInt value }
  | .uint16 value =>
    { formatData with string := formatData.string ++ env.FormatInt value }
  | .long value =>
    { formatData with string := formatData.string ++ env.FormatInt value }
  | .ulong value =>
    { formatData with string := formatData.string ++ env.FormatInt value }
  | .wchar value =>
    { formatData with string := formatData.string ++ String.singleton value }
  | .float value =>
    { formatData with
      string := formatData.string
        ++ env.ToString (env.to_double value) formatData.decimalPlace.value }
  | .decimalPlace dp => { formatData with decimalPlace := dp }
  | .cstr str => { formatData with string := formatData.string ++ str }
  | .string str => { formatData with string := formatData.string ++ str }
  | .optional (some value) =>
    Formatter env { formatData with string := formatData.string ++ "Optional " } value
  | .optional none => { formatData with string := formatData.string ++ "none" }
  | .nullopt _ => { formatData with string := formatData.string ++ "none" }
  | .range values =>
    let opened : FormatData :=
      { formatData with string := formatData.string ++ String.singleton (Char.ofNat 123) }
    let filled := Formatter_range env opened false values
    { filled with string := filled.string ++ String.singleton (Char.ofNat 125) }
  | .streamed text => { formatData with string := formatData.string ++ text }
/-- `Formatter(FormatData& formatData, Iterator begin, Iterator end)`, the loop between
the two braces: a comma before every element but the first (`b` says whether one
element was written), then `Formatter(formatData, *begin)`. -/
def Formatter_range {D F : Type} (env : FormatEnv D F) (formatData : FormatData)
    (b : Bool) : List (Arg D F) → FormatData
  | [] => formatData
  | value :: rest =>
    let separated : FormatData :=
      if b then { formatData with string := formatData.string ++ String.singleton ',' }
      else formatData
    Formatter_range env (Formatter env separated value) true rest
end

mutual
/-- Whether an argument is not, and does not hold, a `DecimalPlace` manipulator. -/
def Arg.no_manipulator {D F : Type} : Arg D F → Bool
  | .decimalPlace _ => false
  | .optional (some value) => Arg.no_manipulator value
  | .range values => Arg.no_manipulator_all values
  | _ => true
/-- Whether no argument of a list is or holds a `DecimalPlace` manipulator. -/
def Arg.no_manipulator_all {D F : Type} : List (Arg D F) → Bool
  | [] => true
  | value :: rest => Arg.no_manipulator value && Arg.no_manipulator_all rest
end

mutual
/-- Whether an argument is not, and does not hold, a floating-point value. -/
def Arg.no_floating {D F : Type} : Arg D F → Bool
  | .double _ => false
  | .float _ => false
  | .optional (some value) => Arg.no_floating value
  | .range values => Arg.no_floating_all values
  | _ => true
/-- Whether no argument of a list is or holds a floating-point value. -/
def Arg.no_floating_all {D F : Type} : List (Arg D F) → Bool
  | [] => true
  | value :: rest => Arg.no_floating value && Arg.no_floating_all rest
end

/-- The text that `Formatter` appends for an argument when the decimal-place setting is
`dp`. -/
def Formatter.appended {D F : Type} (env : FormatEnv D F) (dp : FormatData.DecimalPlace)
    (a : Arg D F) : String :=
  (Formatter env { string := "", decimalPlace := dp } a).string

/-- The decimal-place setting that `Formatter` leaves for an argument when it was
`dp`. -/
def Formatter.setting {D F : Type} (env : FormatEnv D F) (dp : FormatData.DecimalPlace)
    (a : Arg D F) : FormatData.DecimalPlace :=
  (Formatter env { string := "", decimalPlace := dp } a).decimalPlace

/-- `x == nullopt`: `(!x)`. -/
def operator_eq_ON {T : Type} (x : Optional T) (_n : nullopt_t) : Bool := !x.operator_bool

/-- `nullopt == x`: `(!x)`. -/
def operator_eq_NO {T : Type} (_n : nullopt_t) (x : Optional T) : Bool := !x.operator_bool

/-- `x != nullopt`: `static_cast<bool>(x)`. -/
def operator_ne_ON {T : Type} (x : Optional T) (_n : nullopt_t) : Bool := x.operator_bool

/-- `nullopt != x`: `static_cast<bool>(x)`. -/
def operator_ne_NO {T : Type} (_n : nullopt_t) (x : Optional T) : Bool := x.operator_bool

/-- `x < nullopt`: `false`. -/
def operator_lt_ON {T : Type} (_x : Optional T) (_n : nullopt_t) : Bool := false

/-- `nullopt < x`: `static_cast<bool>(x)`. -/
def operator_lt_NO {T : Type} (_n : nullopt_t) (x : Optional T) : Bool := x.operator_bool

/-- `x <= nullopt`: `(!x)`. -/
def operator_le_ON {T : Type} (x : Optional T) (_n : nullopt_t) : Bool := !x.operator_bool

/-- `nullopt <= x`: `true`. -/
def operator_le_NO {T : Type} (_n : nullopt_t) (_x : Optional T) : Bool := true

/-- `x > nullopt`: `static_cast<bool>(x)`. -/
def operator_gt_ON {T : Type} (x : Optional T) (_n : nullopt_t) : Bool := x.operator_bool

/-- `nullopt > x`: `false`. -/
def operator_gt_NO {T : Type} (_n : nullopt_t) (_x : Optional T) : Bool := false

/-- `x >= nullopt`: `true`. -/
def operator_ge_ON {T : Type} (_x : Optional T) (_n : nullopt_t) : Bool := true

/-- `nullopt >= x`: `(!x)`. -/
def operator_ge_NO {T : Type} (_n : nullopt_t) (x : Optional T) : Bool := !x.operator_bool

/-- What it is for `Type`'s `<` to be a strict total order and for `Type`'s `==` to be
equality. -/
structure TypeOps.StrictTotal {T : Type} (ops : TypeOps T) : Prop where
  lt_irrefl : ∀ a, ops.lt a a = false
  lt_trans : ∀ a b c, ops.lt a b = true → ops.lt b c = true → ops.lt a c = true
  lt_total : ∀ a b, ops.lt a b = false → ops.lt b a = false → a = b
  eq_iff : ∀ a b, ops.eq a b = true ↔ a = b

end s3d

/-! ## Theorems -/

namespace s3d

/-! ### Helper lemmas -/

/-- An `Optional` that satisfies the invariant and has its flag set holds a value. -/
theorem Optional.storage_of_wf_init {T : Type} (o : Optional T) (h : o.wf)
    (hi : o.init_ = true) : ∃ v, o.storage_ = .value_ v := by
  rcases o with ⟨⟨i, s⟩⟩
  cases s with
  | dummy_ => simp [Optional.wf, storage_t.live] at h hi; simp [h] at hi
  | value_ v => exact ⟨v, rfl⟩

/-- Copy construction from an `Optional` that satisfies the invariant succeeds and
gives one that satisfies it. -/
theorem Optional.ctor_copy_ok_wf {T : Type} (rhs : Optional T) (hr : rhs.wf) :
    ∃ o1, Optional.ctor_copy rhs = .ok o1 ∧ o1.wf := by
  rcases rhs with ⟨⟨j, t⟩⟩
  cases j <;> cases t <;>
    simp [Optional.ctor_copy, Optional.operator_star, Optional.initialized,
      Optional.contained_val, Optional.wf, storage_t.live, bind, Except.bind, pure,
      Except.pure] at hr ⊢

/-- Move construction from an `Optional` that satisfies the invariant succeeds and
leaves both objects satisfying it. -/
theorem Optional.ctor_move_ok_wf {T : Type} (ops : TypeOps T) (rhs : Optional T)
    (hr : rhs.wf) :
    ∃ p, Optional.ctor_move ops rhs = .ok p ∧ p.1.wf ∧ p.2.wf := by
  rcases rhs with ⟨⟨j, t⟩⟩
  cases j <;> cases t <;>
    simp [Optional.ctor_move, Optional.operator_star, Optional.initialized,
      Optional.contained_val, Optional.wf, storage_t.live, bind, Except.bind, pure,
      Except.pure] at hr ⊢

/-- From any state `emplace` succeeds, the assertion in `initialize` included, and the
result satisfies the invariant. -/
theorem Optional.emplace_ok_wf {T : Type} (o : Optional T) (v : T) :
    ∃ o1, o.emplace v = .ok o1 ∧ o1.wf := by
  simp [Optional.emplace, Optional.clear, Optional.initialize, Optional.wf,
    storage_t.live]

/-- The function `clear` keeps the invariant. -/
theorem Optional.clear_wf {T : Type} (o : Optional T) (ho : o.wf) : o.clear.wf := by
  rcases o with ⟨⟨i, s⟩⟩
  cases i <;> cases s <;>
    simp [Optional.clear, Optional.initialized, Optional.wf, storage_t.live] at ho ⊢

/-- Assignment of a value succeeds on an `Optional` that satisfies the invariant and
keeps it. -/
theorem Optional.assign_value_ok_wf {T : Type} (o : Optional T) (v : T) (ho : o.wf) :
    ∃ o1, o.assign_value v = .ok o1 ∧ o1.wf := by
  rcases o with ⟨⟨i, s⟩⟩
  cases i <;> cases s <;>
    simp [Optional.assign_value, Optional.initialize, Optional.initialized,
      Optional.contained_val, Optional.wf, storage_t.live, bind, Except.bind, pure,
      Except.pure] at ho ⊢

/-- Copy assignment between two `Optional`s that satisfy the invariant succeeds and
keeps it. -/
theorem Optional.assign_copy_ok_wf {T : Type} (o rhs : Optional T) (ho : o.wf)
    (hr : rhs.wf) : ∃ o1, o.assign_copy rhs = .ok o1 ∧ o1.wf := by
  rcases o with ⟨⟨i, s⟩⟩
  rcases rhs with ⟨⟨j, t⟩⟩
  cases i <;> cases j <;> cases s <;> cases t <;>
    simp [Optional.assign_copy, Optional.clear, Optional.initialize,
      Optional.operator_star, Optional.initialized, Optional.contained_val,
      Optional.wf, storage_t.live, bind, Except.bind, pure, Except.pure] at ho hr ⊢

/-- Move assignment between two `Optional`s that satisfy the invariant succeeds and
leaves both satisfying it. -/
theorem Optional.assign_move_ok_wf {T : Type} (ops : TypeOps T) (o rhs : Optional T)
    (ho : o.wf) (hr : rhs.wf) :
    ∃ p, Optional.assign_move ops o rhs = .ok p ∧ p.1.wf ∧ p.2.wf := by
  rcases o with ⟨⟨i, s⟩⟩
  rcases rhs with ⟨⟨j, t⟩⟩
  cases i <;> cases j <;> cases s <;> cases t <;>
    simp [Optional.assign_move, Optional.clear, Optional.initialize,
      Optional.operator_star, Optional.initialized, Optional.contained_val,
      Optional.wf, storage_t.live, bind, Except.bind, pure, Except.pure] at ho hr ⊢

/-- On two `Optional`s that satisfy the invariant `swap` succeeds and exchanges them. -/
theorem Optional.swap_eq {T : Type} (ops : TypeOps T) (o rhs : Optional T)
    (ho : o.wf) (hr : rhs.wf) : Optional.swap ops o rhs = .ok (rhs, o) := by
  rcases o with ⟨⟨i, s⟩⟩
  rcases rhs with ⟨⟨j, t⟩⟩
  cases i <;> cases j <;> cases s <;> cases t <;>
    simp [Optional.swap, Optional.clear, Optional.initialize,
      Optional.operator_star, Optional.initialized, Optional.contained_val,
      Optional.wf, storage_t.live, bind, Except.bind, pure, Except.pure] at ho hr ⊢

/-- Every reachable state of an owning `Optional` satisfies the invariant. -/
theorem Optional.Reachable.wf_of {T : Type} {ops : TypeOps T} {o : Optional T}
    (h : Optional.Reachable ops o) : o.wf := by
  induction h with
  | ctor_default => rfl
  | ctor_nullopt n => rfl
  | ctor_value v => rfl
  | ctor_value_move v => rfl
  | ctor_in_place v => rfl
  | ctor_copy _ heq ih =>
    obtain ⟨o1, h1, hw⟩ := Optional.ctor_copy_ok_wf _ ih
    rw [h1] at heq; cases heq; exact hw
  | ctor_move_new _ heq ih =>
    obtain ⟨p, h1, hw, _⟩ := Optional.ctor_move_ok_wf ops _ ih
    rw [h1] at heq; cases heq; exact hw
  | ctor_move_source _ heq ih =>
    obtain ⟨p, h1, _, hw⟩ := Optional.ctor_move_ok_wf ops _ ih
    rw [h1] at heq; cases heq; exact hw
  | emplace v _ heq _ =>
    obtain ⟨o1, h1, hw⟩ := Optional.emplace_ok_wf _ v
    rw [h1] at heq; cases heq; exact hw
  | reset _ ih => exact Optional.clear_wf _ ih
  | reset_value v _ heq _ =>
    obtain ⟨o1, h1, hw⟩ := Optional.emplace_ok_wf _ v
    rw [Optional.reset_value, h1] at heq; cases heq; exact hw
  | assign_nullopt n _ ih => exact Optional.clear_wf _ ih
  | assign_copy _ _ heq ih1 ih2 =>
    obtain ⟨o1, h1, hw⟩ := Optional.assign_copy_ok_wf _ _ ih1 ih2
    rw [h1] at heq; cases heq; exact hw
  | assign_move_this _ _ heq ih1 ih2 =>
    obtain ⟨p, h1, hw, _⟩ := Optional.assign_move_ok_wf ops _ _ ih1 ih2
    rw [h1] at heq; cases heq; exact hw
  | assign_move_source _ _ heq ih1 ih2 =>
    obtain ⟨p, h1, _, hw⟩ := Optional.assign_move_ok_wf ops _ _ ih1 ih2
    rw [h1] at heq; cases heq; exact hw
  | assign_value v _ heq ih =>
    obtain ⟨o1, h1, hw⟩ := Optional.assign_value_ok_wf _ v ih
    rw [h1] at heq; cases heq; exact hw
  | swap_this _ _ heq ih1 ih2 =>
    rw [Optional.swap_eq ops _ _ ih1 ih2] at heq; cases heq; exact ih2
  | swap_other _ _ heq ih1 ih2 =>
    rw [Optional.swap_eq ops _ _ ih1 ih2] at heq; cases heq; exact ih1

/-- The number of bytes between a position inside a source and its end, capped by the
number asked for. -/
theorem BinaryReader.length_take_drop (src : List UInt8) (p size : Int) (h0 : 0 ≤ p)
    (h1 : p ≤ (src.length : Int)) (hs : 0 ≤ size) :
    (((src.drop p.toNat).take size.toNat).length : Int)
      = min size ((src.length : Int) - p) := by
  simp only [List.length_take, List.length_drop]
  omega

/-- Taking `size` bytes at a position takes as many as are asked for and there. -/
theorem BinaryReader.take_drop_min (src : List UInt8) (p size : Int) (h0 : 0 ≤ p)
    (h1 : p ≤ (src.length : Int)) (hs : 0 ≤ size) :
    (src.drop p.toNat).take size.toNat
      = (src.drop p.toNat).take (min size ((src.length : Int) - p)).toNat := by
  rw [List.take_eq_take]
  simp only [List.length_drop]
  omega

/-- Dereferencing the position right after `pre` gives the element that stands
there. -/
theorem Container.getElem?_after {T : Type} (pre : List T) (x : T) (post : List T) :
    (pre ++ x :: post)[pre.length]? = some x := by
  induction pre with
  | nil => simp
  | cons a pre ih => simpa using ih

/-- A strict weak ordering is irreflexive. -/
theorem TypeOps.StrictWeak.irrefl {T : Type} {ops : TypeOps T} (h : ops.StrictWeak)
    (a : T) : ops.lt a a = false := by
  cases hl : ops.lt a a with
  | false => rfl
  | true => have := h.asymm a a hl; rw [hl] at this; exact this

/-- A strict weak ordering is transitive. -/
theorem TypeOps.StrictWeak.trans {T : Type} {ops : TypeOps T} (h : ops.StrictWeak)
    {a b c : T} (hab : ops.lt a b = true) (hbc : ops.lt b c = true) :
    ops.lt a c = true := by
  rcases h.neg_trans a c b hab with hac | hcb
  · exact hac
  · have := h.asymm b c hbc; rw [hcb] at this; cases this

/-- Read from right to left, a strict weak ordering is one again. -/
theorem TypeOps.StrictWeak.flip {T : Type} {ops : TypeOps T} (h : ops.StrictWeak) :
    ops.flip.StrictWeak where
  asymm a b hab := h.asymm b a hab
  neg_trans a b c hac := (h.neg_trans c b a hac).symm

/-- The invariant of the loop of `std::max_element`: with the greatest element so far
at the end of `pre`, everything before it strictly less and nothing after it greater,
the loop ends at a position with the same two properties in the whole range. -/
theorem std.max_element_loop_spec {T : Type} {ops : TypeOps T} (h : ops.StrictWeak)
    (rest : List T) : ∀ (pre : List T) (lv : T) (mid : List T) (first : Nat),
    first = pre.length + 1 + mid.length →
    (∀ y ∈ pre, ops.lt y lv = true) → (∀ y ∈ mid, ops.lt lv y = false) →
    ∃ pre1 x post1, pre ++ lv :: mid ++ rest = pre1 ++ x :: post1
      ∧ std.max_element_loop ops pre.length lv first rest = pre1.length
      ∧ (∀ y ∈ pre1, ops.lt y x = true) ∧ (∀ y ∈ post1, ops.lt x y = false) := by
  induction rest with
  | nil =>
    intro pre lv mid first _ hpre hmid
    exact ⟨pre, lv, mid, by simp, rfl, hpre, hmid⟩
  | cons z rest ih =>
    intro pre lv mid first hfirst hpre hmid
    by_cases hz : ops.lt lv z = true
    · obtain ⟨pre1, x, post1, hl, hr, h1, h2⟩ :=
        ih (pre ++ lv :: mid) z [] (first + 1) (by simp [hfirst]; omega)
          (by
            intro y hy
            rcases List.mem_append.mp hy with hy | hy
            · exact h.trans (hpre y hy) hz
            · rcases List.mem_cons.mp hy with hy | hy
              · rw [hy]; exact hz
              · rcases h.neg_trans lv y z hz with h3 | h3
                · rw [hmid y hy] at h3; cases h3
                · exact h3)
          (by simp)
      refine ⟨pre1, x, post1, ?_, ?_, h1, h2⟩
      · rw [← hl]; simp
      · rw [← hr]
        have hlen : (pre ++ lv :: mid).length = first := by simp [hfirst]; omega
        simp [std.max_element_loop, hz, hlen]
    · have hz2 : ops.lt lv z = false := by simpa using hz
      obtain ⟨pre1, x, post1, hl, hr, h1, h2⟩ :=
        ih pre lv (mid ++ [z]) (first + 1) (by simp [hfirst]; omega) hpre
          (by
            intro y hy
            rcases List.mem_append.mp hy with hy | hy
            · exact hmid y hy
            · rw [List.mem_singleton.mp hy]; exact hz2)
      refine ⟨pre1, x, post1, ?_, ?_, h1, h2⟩
      · rw [← hl]; simp
      · rw [← hr]
        simp [std.max_element_loop, hz2]

/-- On a non-empty range `std::max_element` returns the position of an element that
nothing exceeds and before which everything is strictly less. -/
theorem std.max_element_spec {T : Type} {ops : TypeOps T} (h : ops.StrictWeak)
    (l : List T) (hne : l ≠ []) :
    ∃ pre x post, l = pre ++ x :: post ∧ std.max_element ops l = pre.length
      ∧ (∀ y ∈ pre, ops.lt y x = true) ∧ (∀ y ∈ post, ops.lt x y = false) := by
  cases l with
  | nil => exact absurd rfl hne
  | cons a rest =>
    obtain ⟨pre1, x, post1, hl, hr, h1, h2⟩ :=
      std.max_element_loop_spec h rest [] a [] 1 (by simp) (by simp) (by simp)
    exact ⟨pre1, x, post1, by simpa using hl, by simpa [std.max_element] using hr, h1, h2⟩

/-- The loop of `std::min_element` is that of `std::max_element` for `<` read from right
to left. -/
theorem std.min_element_loop_eq {T : Type} (ops : TypeOps T) (rest : List T) :
    ∀ (i : Nat) (v : T) (first : Nat),
    std.min_element_loop ops i v first rest = std.max_element_loop ops.flip i v first rest := by
  induction rest with
  | nil => intro i v first; rfl
  | cons z rest ih =>
    intro i v first
    simp [std.min_element_loop, std.max_element_loop, TypeOps.flip, ih]

/-- `std::min_element` is `std::max_element` for `<` read from right to left. -/
theorem std.min_element_eq {T : Type} (ops : TypeOps T) (l : List T) :
    std.min_element ops l = std.max_element ops.flip l := by
  cases l with
  | nil => rfl
  | cons a rest => simp [std.min_element, std.max_element, std.min_element_loop_eq]

/-- The loop of `std::remove_if` leaves the kept elements, in their order, in front of
the position it returns. -/
theorem std.remove_if_loop_spec {T : Type} (ops : TypeOps T) (pred : T → Bool)
    (rest : List T) : ∀ (out stale : List T),
    ∃ st, std.remove_if_loop ops pred out stale rest
      = ((out ++ rest.filter (fun x => !pred x)) ++ st,
         (out ++ rest.filter (fun x => !pred x)).length) := by
  induction rest with
  | nil => intro out stale; exact ⟨stale, by simp [std.remove_if_loop]⟩
  | cons x rest ih =>
    intro out stale
    by_cases hp : pred x = true
    · obtain ⟨st, hst⟩ := ih out (stale ++ [x])
      exact ⟨st, by simp [std.remove_if_loop, hp, hst]⟩
    · have hp2 : pred x = false := by simpa using hp
      cases stale with
      | nil =>
        obtain ⟨st, hst⟩ := ih (out ++ [x]) []
        exact ⟨st, by simp [std.remove_if_loop, hp2, hst]⟩
      | cons s0 st0 =>
        obtain ⟨st, hst⟩ := ih (out ++ [x]) (st0 ++ [ops.moved_from x])
        exact ⟨st, by simp [std.remove_if_loop, hp2, hst]⟩

/-- With `val` bound to an object outside the range, the loop of `std::remove` is that
of `std::remove_if` for the condition `== v`. -/
theorem std.remove_loop_outside {T : Type} (ops : TypeOps T) (v : T) (rest : List T) :
    ∀ (out stale : List T),
    std.remove_loop ops (.outside v) out stale rest
      = some (std.remove_if_loop ops (fun x => ops.eq x v) out stale rest) := by
  induction rest with
  | nil => intro out stale; rfl
  | cons x rest ih =>
    intro out stale
    by_cases hp : ops.eq x v = true
    · simp [std.remove_loop, std.remove_if_loop, ValRef.read, hp, ih]
    · have hp2 : ops.eq x v = false := by simpa using hp
      cases stale with
      | nil => simp [std.remove_loop, std.remove_if_loop, ValRef.read, hp2, ih]
      | cons s0 st0 => simp [std.remove_loop, std.remove_if_loop, ValRef.read, hp2, ih]

/-- Erasing from the position `std::remove_if` returns to the end leaves the elements
that do not satisfy the condition. -/
theorem Container.erase_remove_if_loop {T : Type} (ops : TypeOps T) (pred : T → Bool)
    (c : List T) :
    Container.erase (std.remove_if_loop ops pred [] [] c).1
        (std.remove_if_loop ops pred [] [] c).2
        (std.remove_if_loop ops pred [] [] c).1.length
      = c.filter (fun x => !pred x) := by
  obtain ⟨st, hst⟩ := std.remove_if_loop_spec ops pred c [] []
  rw [hst]
  simp [Container.erase]

/-- The operator `<` of `int` is a strict weak ordering. -/
theorem intOps_strictWeak : intOps.StrictWeak where
  asymm a b hab := by
    simp only [intOps, decide_eq_true_eq, decide_eq_false_iff_not] at hab ⊢
    omega
  neg_trans a b c hac := by
    simp only [intOps, decide_eq_true_eq] at hac ⊢
    omega

/-- The operators of `int` form a total order. -/
theorem intOps_totalOrder : intOps.TotalOrder where
  lt_irrefl a := by simp [intOps]
  lt_trans a b c hab hbc := by
    simp only [intOps, decide_eq_true_eq] at hab hbc ⊢
    omega
  lt_total a b hab hba := by
    simp only [intOps, decide_eq_false_iff_not] at hab hba
    omega
  le_iff a b := by
    simp only [intOps]
    by_cases h : a ≤ b
    · have h2 : ¬ b < a := by omega
      simp [h, h2]
    · have h2 : b < a := by omega
      simp [h, h2]

mutual
/-- Every overload of `Formatter` only appends to the string: what it appends and the
setting it leaves depend on the setting it finds, not on the string. -/
theorem Formatter_frame {D F : Type} (env : FormatEnv D F) :
    ∀ (a : Arg D F) (fd : FormatData),
    Formatter env fd a
      = { string := fd.string ++ Formatter.appended env fd.decimalPlace a
          decimalPlace := Formatter.setting env fd.decimalPlace a }
  | .optional (some v), fd => by
    have h1 := Formatter_frame env v
      { string := fd.string ++ "Optional ", decimalPlace := fd.decimalPlace }
    have h2 := Formatter_frame env v
      { string := "" ++ "Optional ", decimalPlace := fd.decimalPlace }
    show Formatter env
        { string := fd.string ++ "Optional ", decimalPlace := fd.decimalPlace } v
      = { string := fd.string ++ (Formatter env
            { string := "" ++ "Optional ", decimalPlace := fd.decimalPlace } v).string
          decimalPlace := (Formatter env
            { string := "" ++ "Optional ", decimalPlace := fd.decimalPlace } v).decimalPlace }
    rw [h1, h2]
    simp [String.append_assoc]
  | .range xs, fd => by
    have h1 := Formatter_range_frame env xs
      { string := fd.string ++ String.singleton (Char.ofNat 123)
        decimalPlace := fd.decimalPlace } false
    have h2 := Formatter_range_frame env xs
      { string := "" ++ String.singleton (Char.ofNat 123)
        decimalPlace := fd.decimalPlace } false
    simp only [Formatter, Formatter.appended, Formatter.setting]
    rw [h1, h2]
    simp [String.append_assoc]
  | .int32 _, fd => by simp [Formatter, Formatter.appended, Formatter.setting]
  | .uint32 _, fd => by simp [Formatter, Formatter.appended, Formatter.setting]
  | .int64 _, fd => by simp [Formatter, Formatter.appended, Formatter.setting]
  | .uint64 _, fd => by simp [Formatter, Formatter.appended, Formatter.setting]
  | .double _, fd => by simp [Formatter, Formatter.appended, Formatter.setting]
  | .nullptr, fd => by simp [Formatter, Formatter.appended, Formatter.setting]
  | .bool _, fd => by simp [Formatter, Formatter.appended, Formatter.setting]
  | .int8 _, fd => by simp [Formatter, Formatter.appended, Formatter.setting]
  | .uint8 _, fd => by simp [Formatter, Formatter.appended, Formatter.setting]
  | .char _, fd => by simp [Formatter, Formatter.appended, Formatter.setting]
  | .int16 _, fd => by simp [Formatter, Formatter.appended, Formatter.setting]
  | .uint16 _, fd => by simp [Formatter, Formatter.appended, Formatter.setting]
  | .long _, fd => by simp [Formatter, Formatter.appended, Formatter.setting]
  | .ulong _, fd => by simp [Formatter, Formatter.appended, Formatter.setting]
  | .wchar _, fd => by simp [Formatter, Formatter.appended, Formatter.setting]
  | .float _, fd => by simp [Formatter, Formatter.appended, Formatter.setting]
  | .decimalPlace _, fd => by simp [Formatter, Formatter.appended, Formatter.setting]
  | .cstr _, fd => by simp [Formatter, Formatter.appended, Formatter.setting]
  | .string _, fd => by simp [Formatter, Formatter.appended, Formatter.setting]
  | .optional none, fd => by simp [Formatter, Formatter.appended, Formatter.setting]
  | .nullopt _, fd => by simp [Formatter, Formatter.appended, Formatter.setting]
  | .streamed _, fd => by simp [Formatter, Formatter.appended, Formatter.setting]
/-- The loop over the elements of a range only appends to the string. -/
theorem Formatter_range_frame {D F : Type} (env : FormatEnv D F) :
    ∀ (xs : List (Arg D F)) (fd : FormatData) (b : Bool),
    Formatter_range env fd b xs
      = { string := fd.string ++ (Formatter_range env
            { string := "", decimalPlace := fd.decimalPlace } b xs).string
          decimalPlace := (Formatter_range env
            { string := "", decimalPlace := fd.decimalPlace } b xs).decimalPlace }
  | [], fd, b => by simp [Formatter_range]
  | x :: rest, fd, true => by
    have h1 := Formatter_frame env x
      { string := fd.string ++ String.singleton ',', decimalPlace := fd.decimalPlace }
    have h2 := Formatter_frame env x
      { string := "" ++ String.singleton ',', decimalPlace := fd.decimalPlace }
    have h3 := Formatter_range_frame env rest
      { string := fd.string ++ String.singleton ','
          ++ Formatter.appended env fd.decimalPlace x
        decimalPlace := Formatter.setting env fd.decimalPlace x } true
    have h4 := Formatter_range_frame env rest
      { string := "" ++ String.singleton ','
          ++ Formatter.appended env fd.decimalPlace x
        decimalPlace := Formatter.setting env fd.decimalPlace x } true
    simp only [Formatter_range, if_true]
    rw [h1, h2]
    simp only at h3 h4 ⊢
    rw [h3, h4]
    simp [String.append_assoc]
  | x :: rest, fd, false => by
    have h1 := Formatter_frame env x fd
    have h2 := Formatter_frame env x { string := "", decimalPlace := fd.decimalPlace }
    have h3 := Formatter_range_frame env rest
      { string := fd.string ++ Formatter.appended env fd.decimalPlace x
        decimalPlace := Formatter.setting env fd.decimalPlace x } true
    have h4 := Formatter_range_frame env rest
      { string := "" ++ Formatter.appended env fd.decimalPlace x
        decimalPlace := Formatter.setting env fd.decimalPlace x } true
    simp only [Formatter_range, Bool.false_eq_true, if_false]
    rw [h1, h2]
    simp only at h3 h4 ⊢
    rw [h3, h4]
    simp [String.append_assoc]
end

mutual
/-- An argument that is not and holds no `DecimalPlace` manipulator leaves the setting
as it finds it. -/
theorem Formatter_keeps_setting {D F : Type} (env : FormatEnv D F) :
    ∀ (a : Arg D F) (fd : FormatData), a.no_manipulator = true →
    (Formatter env fd a).decimalPlace = fd.decimalPlace
  | .optional (some v), fd, h => by
    have h1 := Formatter_keeps_setting env v
      { string := fd.string ++ "Optional ", decimalPlace := fd.decimalPlace }
      (by simpa [Arg.no_manipulator] using h)
    simpa [Formatter] using h1
  | .range xs, fd, h => by
    have h1 := Formatter_range_keeps_setting env xs
      { string := fd.string ++ String.singleton (Char.ofNat 123)
        decimalPlace := fd.decimalPlace } false (by simpa [Arg.no_manipulator] using h)
    simpa [Formatter] using h1
  | .decimalPlace _, fd, h => by simp [Arg.no_manipulator] at h
  | .int32 _, fd, _ => by simp [Formatter]
  | .uint32 _, fd, _ => by simp [Formatter]
  | .int64 _, fd, _ => by simp [Formatter]
  | .uint64 _, fd, _ => by simp [Formatter]
  | .double _, fd, _ => by simp [Formatter]
  | .nullptr, fd, _ => by simp [Formatter]
  | .bool _, fd, _ => by simp [Formatter]
  | .int8 _, fd, _ => by simp [Formatter]
  | .uint8 _, fd, _ => by simp [Formatter]
  | .char _, fd, _ => by simp [Formatter]
  | .int16 _, fd, _ => by simp [Formatter]
  | .uint16 _, fd, _ => by simp [Formatter]
  | .long _, fd, _ => by simp [Formatter]
  | .ulong _, fd, _ => by simp [Formatter]
  | .wchar _, fd, _ => by simp [Formatter]
  | .float _, fd, _ => by simp [Formatter]
  | .cstr _, fd, _ => by simp [Formatter]
  | .string _, fd, _ => by simp [Formatter]
  | .optional none, fd, _ => by simp [Formatter]
  | .nullopt _, fd, _ => by simp [Formatter]
  | .streamed _, fd, _ => by simp [Formatter]
/-- A range whose elements are not and hold no `DecimalPlace` manipulator leaves the
setting as it finds it. -/
theorem Formatter_range_keeps_setting {D F : Type} (env : FormatEnv D F) :
    ∀ (xs : List (Arg D F)) (fd : FormatData) (b : Bool),
    Arg.no_manipulator_all xs = true →
    (Formatter_range env fd b xs).decimalPlace = fd.decimalPlace
  | [], fd, b, _ => by simp [Formatter_range]
  | x :: rest, fd, b, h => by
    have hx : x.no_manipulator = true ∧ Arg.no_manipulator_all rest = true := by
      simpa [Arg.no_manipulator_all] using h
    have h2 := Formatter_range_keeps_setting env rest
      (Formatter env (if b then { fd with string := fd.string ++ String.singleton ',' }
        else fd) x) true hx.2
    have h1 := Formatter_keeps_setting env x
      (if b then { fd with string := fd.string ++ String.singleton ',' } else fd) hx.1
    simp only [Formatter_range]
    rw [h2, h1]
    cases b <;> simp
end

/-- An `Optional` that satisfies the invariant is the empty one or one constructed
from a value. -/
theorem Optional.wf_cases {T : Type} (o : Optional T) (h : o.wf) :
    o = Optional.ctor_default ∨ ∃ v, o = Optional.ctor_value v := by
  rcases o with ⟨⟨i, s⟩⟩
  cases i <;> cases s <;>
    simp [Optional.wf, storage_t.live, Optional.ctor_default, Optional.ctor_value] at h ⊢

/-- The operators `==` and `<` on two empty `Optional`s. -/
theorem operator_eq_lt_empty_empty {T : Type} (ops : TypeOps T) :
    operator_eq ops (Optional.ctor_default : Optional T) Optional.ctor_default = .ok true
    ∧ operator_lt ops (Optional.ctor_default : Optional T) Optional.ctor_default
        = .ok false := ⟨rfl, rfl⟩

/-- The operators `==` and `<` on an empty and a present `Optional`. -/
theorem operator_eq_lt_empty_value {T : Type} (ops : TypeOps T) (b : T) :
    operator_eq ops Optional.ctor_default (Optional.ctor_value b) = .ok false
    ∧ operator_lt ops Optional.ctor_default (Optional.ctor_value b) = .ok true
    ∧ operator_eq ops (Optional.ctor_value b) Optional.ctor_default = .ok false
    ∧ operator_lt ops (Optional.ctor_value b) Optional.ctor_default = .ok false :=
  ⟨rfl, rfl, rfl, rfl⟩

/-- The operators `==` and `<` on two present `Optional`s are those of `Type` on the
held values. -/
theorem operator_eq_lt_value_value {T : Type} (ops : TypeOps T) (a b : T) :
    operator_eq ops (Optional.ctor_value a) (Optional.ctor_value b) = .ok (ops.eq a b)
    ∧ operator_lt ops (Optional.ctor_value a) (Optional.ctor_value b)
        = .ok (ops.lt a b) := ⟨rfl, rfl⟩

/-- In a strict total order `a < b` excludes `b < a`. -/
theorem TypeOps.StrictTotal.asymm {T : Type} {ops : TypeOps T} (h : ops.StrictTotal)
    {a b : T} (hab : ops.lt a b = true) : ops.lt b a = false := by
  cases hba : ops.lt b a with
  | false => rfl
  | true =>
    have := h.lt_trans a b a hab hba
    rw [h.lt_irrefl] at this
    cases this

/-- In a strict total order `a < b` excludes `a == b`. -/
theorem TypeOps.StrictTotal.ne_of_lt {T : Type} {ops : TypeOps T} (h : ops.StrictTotal)
    {a b : T} (hab : ops.lt a b = true) : ops.eq a b = false := by
  cases he : ops.eq a b with
  | false => rfl
  | true =>
    have hab2 : a = b := (h.eq_iff a b).mp he
    rw [hab2, h.lt_irrefl] at hab
    cases hab

/-- In a strict total order `a == b` is the same as `b == a`. -/
theorem TypeOps.StrictTotal.eq_comm {T : Type} {ops : TypeOps T} (h : ops.StrictTotal)
    (a b : T) : ops.eq a b = ops.eq b a := by
  cases he : ops.eq a b with
  | true =>
    have hab : a = b := (h.eq_iff a b).mp he
    exact ((h.eq_iff b a).mpr hab.symm).symm
  | false =>
    cases he2 : ops.eq b a with
    | false => rfl
    | true =>
      have hba : b = a := (h.eq_iff b a).mp he2
      rw [(h.eq_iff a b).mpr hba.symm] at he
      cases he

/-- The operators of `int` are a strict total order with `==` as equality. -/
theorem intOps_strictTotal : intOps.StrictTotal where
  lt_irrefl a := by simp [intOps]
  lt_trans a b c hab hbc := by
    simp only [intOps, decide_eq_true_eq] at hab hbc ⊢
    omega
  lt_total a b hab hba := by
    simp only [intOps, decide_eq_false_iff_not] at hab hba
    omega
  eq_iff a b := by simp [intOps]

/-- In a strict total order exactly one of `a < b`, `a == b`, `b < a` holds. -/
theorem TypeOps.StrictTotal.trichotomy {T : Type} {ops : TypeOps T}
    (h : ops.StrictTotal) (a b : T) :
    (ops.lt a b = true ∧ ops.eq a b = false ∧ ops.lt b a = false)
    ∨ (ops.lt a b = false ∧ ops.eq a b = true ∧ ops.lt b a = false)
    ∨ (ops.lt a b = false ∧ ops.eq a b = false ∧ ops.lt b a = true) := by
  cases hab : ops.lt a b with
  | true => exact Or.inl ⟨rfl, h.ne_of_lt hab, h.asymm hab⟩
  | false =>
    cases hba : ops.lt b a with
    | true =>
      refine Or.inr (Or.inr ⟨rfl, ?_, rfl⟩)
      rw [h.eq_comm a b]
      exact h.ne_of_lt hba
    | false =>
      refine Or.inr (Or.inl ⟨rfl, ?_, rfl⟩)
      exact (h.eq_iff a b).mpr (h.lt_total a b hab hba)

/-- For two `Optional`s that satisfy the invariant, over a strict total order, exactly
one of `x < y`, `x == y`, `y < x` is true, and each of the three returns a result. -/
theorem operator_trichotomy {T : Type} {ops : TypeOps T} (h : ops.StrictTotal)
    (x y : Optional T) (hx : x.wf) (hy : y.wf) :
    (operator_lt ops x y = .ok true ∧ operator_eq ops x y = .ok false
        ∧ operator_lt ops y x = .ok false)
    ∨ (operator_lt ops x y = .ok false ∧ operator_eq ops x y = .ok true
        ∧ operator_lt ops y x = .ok false)
    ∨ (operator_lt ops x y = .ok false ∧ operator_eq ops x y = .ok false
        ∧ operator_lt ops y x = .ok true) := by
  rcases Optional.wf_cases x hx with rfl | ⟨a, rfl⟩ <;>
    rcases Optional.wf_cases y hy with rfl | ⟨b, rfl⟩
  · exact Or.inr (Or.inl ⟨rfl, rfl, rfl⟩)
  · exact Or.inl ⟨rfl, rfl, rfl⟩
  · exact Or.inr (Or.inr ⟨rfl, rfl, rfl⟩)
  · rw [(operator_eq_lt_value_value ops a b).1, (operator_eq_lt_value_value ops a b).2,
      (operator_eq_lt_value_value ops b a).2]
    rcases h.trichotomy a b with ⟨h1, h2, h3⟩ | ⟨h1, h2, h3⟩ | ⟨h1, h2, h3⟩
    · exact Or.inl ⟨by rw [h1], by rw [h2], by rw [h3]⟩
    · exact Or.inr (Or.inl ⟨by rw [h1], by rw [h2], by rw [h3]⟩)
    · exact Or.inr (Or.inr ⟨by rw [h1], by rw [h2], by rw [h3]⟩)

/-! ### Construction and access -/

/-- C1: an `Optional` constructed from a value `v`, through `Optional(const Type&)` or
through `Optional(Type&&)`, has `has_value() == true`, and `value()` returns `v`
without failing. -/
theorem C1_value_ctor_has_value (T : Type) (ops : TypeOps T) (v : T) :
    (Optional.ctor_value v).has_value = true
    ∧ (Optional.ctor_value v).value = .ok v
    ∧ (Optional.ctor_value_move ops v).1.has_value = true
    ∧ (Optional.ctor_value_move ops v).1.value = .ok v := by
  simp [Optional.ctor_value, Optional.ctor_value_move, Optional.has_value,
    Optional.value, Optional.initialized, Optional.contained_val]

/-- C2: a default-constructed `Optional` and one constructed from `nullopt` have
`has_value() == false` and `value()` throws on them; for every `Optional` that
satisfies the representation invariant, `value()` throws `bad_optional_access`
exactly when `has_value()` is false, and otherwise returns the stored value. -/
theorem C2_value_throws_iff_empty (T : Type) (o : Optional T) (h : o.wf) :
    (Optional.ctor_default : Optional T).has_value = false
    ∧ (Optional.ctor_nullopt .nullopt : Optional T).has_value = false
    ∧ (Optional.ctor_default : Optional T).value
        = .error (.bad_optional_access "bad Optional access")
    ∧ (Optional.ctor_nullopt .nullopt : Optional T).value
        = .error (.bad_optional_access "bad Optional access")
    ∧ ((∃ w, o.value = .error (.bad_optional_access w)) ↔ o.has_value = false)
    ∧ (o.has_value = true → ∃ v, o.storage_ = .value_ v ∧ o.value = .ok v) := by
  refine ⟨rfl, rfl, rfl, rfl, ?_, ?_⟩
  · rcases o with ⟨⟨i, s⟩⟩
    cases i <;> cases s <;>
      simp [Optional.value, Optional.has_value, Optional.initialized,
        Optional.contained_val, Optional.wf, storage_t.live] at h ⊢
  · intro hv
    obtain ⟨v, hs⟩ := Optional.storage_of_wf_init o h hv
    refine ⟨v, hs, ?_⟩
    have hi : o.init_ = true := hv
    simp [Optional.value, Optional.initialized, Optional.contained_val, hs, hi]

/-- The witness of C2: a present `Optional<int>` holding 7. -/
theorem C2_value_throws_iff_empty_witness :
    (Optional.ctor_value (7 : Int)).wf
    ∧ ((∃ w, (Optional.ctor_value (7 : Int)).value = .error (.bad_optional_access w))
        ↔ (Optional.ctor_value (7 : Int)).has_value = false)
    ∧ ((Optional.ctor_value (7 : Int)).has_value = true →
        ∃ v, (Optional.ctor_value (7 : Int)).storage_ = .value_ v
          ∧ (Optional.ctor_value (7 : Int)).value = .ok v) :=
  ⟨by decide,
   (C2_value_throws_iff_empty Int (Optional.ctor_value 7) (by decide)).2.2.2.2.1,
   (C2_value_throws_iff_empty Int (Optional.ctor_value 7) (by decide)).2.2.2.2.2⟩

/-- C3: on an `Optional` that satisfies the representation invariant, `value_or(d)`
never fails, in the const-lvalue and in the rvalue overload: it returns `d` converted
to `Type` when the `Optional` is empty and the stored value when it is present. -/
theorem C3_value_or (T V : Type) (ops : TypeOps T) (conv : V → T) (o : Optional T)
    (d : V) (h : o.wf) :
    (∃ r, o.value_or conv d = .ok r)
    ∧ (∃ r, o.value_or_rvalue ops conv d = .ok r)
    ∧ (o.has_value = false →
        o.value_or conv d = .ok (conv d)
        ∧ Prod.fst <$> o.value_or_rvalue ops conv d = .ok (conv d))
    ∧ (∀ v, o.has_value = true → o.storage_ = .value_ v →
        o.value_or conv d = .ok v
        ∧ Prod.fst <$> o.value_or_rvalue ops conv d = .ok v) := by
  rcases o with ⟨⟨i, s⟩⟩
  cases i <;> cases s <;>
    simp [Optional.value_or, Optional.value_or_rvalue, Optional.has_value,
      Optional.operator_bool, Optional.operator_star, Optional.initialized,
      Optional.contained_val, Optional.wf, storage_t.live, detail_.convert,
      Functor.map, Except.map] at h ⊢

/-- The witness of C3: `value_or` on an empty and on a present `Optional<int>`, with a
default given as a natural number. -/
theorem C3_value_or_witness :
    (Optional.ctor_default : Optional Int).wf
    ∧ (Optional.ctor_default : Optional Int).value_or Int.ofNat 3 = .ok 3
    ∧ (Optional.ctor_value (7 : Int)).value_or Int.ofNat 3 = .ok 7 :=
  ⟨by decide,
   ((C3_value_or Int Nat intOps Int.ofNat Optional.ctor_default 3 (by decide)).2.2.1
      rfl).1,
   ((C3_value_or Int Nat intOps Int.ofNat (Optional.ctor_value 7) 3 (by decide)).2.2.2
      7 rfl rfl).1⟩

/-! ### Comparison -/

/-- C4: for two `Optional`s that satisfy the representation invariant, `x == y`
returns a result, which is true exactly when both are empty or both are present and
`Type`'s `==` holds between the stored values; `x != y` returns its negation. -/
theorem C4_operator_eq_iff (T : Type) (ops : TypeOps T) (x y : Optional T)
    (hx : x.wf) (hy : y.wf) :
    ∃ r, operator_eq ops x y = .ok r
      ∧ operator_ne ops x y = .ok (!r)
      ∧ (r = true ↔
          (x.has_value = false ∧ y.has_value = false)
          ∨ (x.has_value = true ∧ y.has_value = true
              ∧ ∃ a b, x.storage_ = .value_ a ∧ y.storage_ = .value_ b
                  ∧ ops.eq a b = true)) := by
  rcases x with ⟨⟨i, s⟩⟩
  rcases y with ⟨⟨j, t⟩⟩
  cases i <;> cases j <;> cases s <;> cases t <;>
    simp [operator_eq, operator_ne, Optional.has_value, Optional.operator_bool,
      Optional.operator_star, Optional.initialized, Optional.contained_val,
      Optional.wf, storage_t.live, bind, Except.bind, pure, Except.pure] at hx hy ⊢

/-- The witness of C4: `Optional<int>(4) == Optional<int>(4)`. -/
theorem C4_operator_eq_iff_witness :
    ∃ r, operator_eq intOps (Optional.ctor_value 4) (Optional.ctor_value 4) = .ok r
      ∧ operator_ne intOps (Optional.ctor_value 4) (Optional.ctor_value 4) = .ok (!r)
      ∧ (r = true ↔
          ((Optional.ctor_value (4 : Int)).has_value = false
            ∧ (Optional.ctor_value (4 : Int)).has_value = false)
          ∨ ((Optional.ctor_value (4 : Int)).has_value = true
              ∧ (Optional.ctor_value (4 : Int)).has_value = true
              ∧ ∃ a b, (Optional.ctor_value (4 : Int)).storage_ = .value_ a
                  ∧ (Optional.ctor_value (4 : Int)).storage_ = .value_ b
                  ∧ intOps.eq a b = true)) :=
  C4_operator_eq_iff Int intOps (Optional.ctor_value 4) (Optional.ctor_value 4)
    (by decide) (by decide)

/-- C5: for two `Optional`s that satisfy the representation invariant, `x < y`
returns a result, which is true exactly when `y` is present and `x` is empty or holds
a value that is `<` the value of `y`; so an empty one is less than every present one,
and nothing is less than an empty one. -/
theorem C5_operator_lt_iff (T : Type) (ops : TypeOps T) (x y : Optional T)
    (hx : x.wf) (hy : y.wf) :
    ∃ r, operator_lt ops x y = .ok r
      ∧ (r = true ↔
          y.has_value = true
          ∧ (x.has_value = false
              ∨ ∃ a b, x.storage_ = .value_ a ∧ y.storage_ = .value_ b
                  ∧ ops.lt a b = true))
      ∧ (x.has_value = false → y.has_value = true → r = true)
      ∧ (y.has_value = false → r = false) := by
  rcases x with ⟨⟨i, s⟩⟩
  rcases y with ⟨⟨j, t⟩⟩
  cases i <;> cases j <;> cases s <;> cases t <;>
    simp [operator_lt, Optional.has_value, Optional.operator_bool,
      Optional.operator_star, Optional.initialized, Optional.contained_val,
      Optional.wf, storage_t.live, bind, Except.bind, pure, Except.pure] at hx hy ⊢

/-- The witness of C5: an empty `Optional<int>` against `Optional<int>(-9)`. -/
theorem C5_operator_lt_iff_witness :
    operator_lt intOps Optional.ctor_default (Optional.ctor_value (-9)) = .ok true
    ∧ operator_lt intOps (Optional.ctor_value (-9)) Optional.ctor_default = .ok false :=
  ⟨by
    obtain ⟨r, hr, _, he, _⟩ :=
      C5_operator_lt_iff Int intOps Optional.ctor_default (Optional.ctor_value (-9))
        (by decide) (by decide)
    rw [hr, he rfl rfl],
   by
    obtain ⟨r, hr, _, _, hn⟩ :=
      C5_operator_lt_iff Int intOps (Optional.ctor_value (-9)) Optional.ctor_default
        (by decide) (by decide)
    rw [hr, hn rfl]⟩

/-- C6: against a raw value `v`, an empty `Optional` `x` is never equal and always
less, in both argument orders: `x == v` and `v == x` are false, `x != v` and `v != x`
are true, `x < v`, `x <= v`, `v > x`, `v >= x` are true, and `x > v`, `x >= v`,
`v < x`, `v <= x` are false. -/
theorem C6_empty_against_value (T : Type) (ops : TypeOps T) (x : Optional T) (v : T)
    (hx : x.has_value = false) :
    operator_eq_OV ops x v = .ok false ∧ operator_eq_VO ops v x = .ok false
    ∧ operator_ne_OV ops x v = .ok true ∧ operator_ne_VO ops v x = .ok true
    ∧ operator_lt_OV ops x v = .ok true ∧ operator_le_OV ops x v = .ok true
    ∧ operator_gt_VO ops v x = .ok true ∧ operator_ge_VO ops v x = .ok true
    ∧ operator_gt_OV ops x v = .ok false ∧ operator_ge_OV ops x v = .ok false
    ∧ operator_lt_VO ops v x = .ok false ∧ operator_le_VO ops v x = .ok false := by
  have hb : x.operator_bool = false := hx
  simp [operator_eq_OV, operator_eq_VO, operator_ne_OV, operator_ne_VO,
    operator_lt_OV, operator_le_OV, operator_gt_VO, operator_ge_VO, operator_gt_OV,
    operator_ge_OV, operator_lt_VO, operator_le_VO, hb, pure, Except.pure]

/-- The witness of C6: an empty `Optional<int>` against the value 0. -/
theorem C6_empty_against_value_witness :
    operator_eq_OV intOps Optional.ctor_default 0 = .ok false
    ∧ operator_lt_OV intOps Optional.ctor_default 0 = .ok true :=
  have h := C6_empty_against_value Int intOps Optional.ctor_default 0 rfl
  ⟨h.1, h.2.2.2.2.1⟩

/-! ### Mutation -/

/-- C7: from any state of the `Optional`, `emplace(x)` alone and `reset()` followed
by `emplace(x)` both succeed and leave `has_value() == true`, `value() == x` and
exactly `x` in the storage, whatever was stored before. -/
theorem C7_reset_emplace_roundtrip (T : Type) (o : Optional T) (x : T) :
    o.emplace x = .ok (Optional.ctor_value x)
    ∧ o.reset.emplace x = .ok (Optional.ctor_value x)
    ∧ (Optional.ctor_value x).has_value = true
    ∧ (Optional.ctor_value x).value = .ok x
    ∧ (Optional.ctor_value x).storage_ = .value_ x := by
  simp [Optional.emplace, Optional.reset, Optional.clear, Optional.initialize,
    Optional.ctor_value, Optional.has_value, Optional.value, Optional.initialized,
    Optional.contained_val]

/-- C8: `reset()` and assignment from `nullopt` leave every `Optional` empty, change
nothing on one that is already empty, and `reset(); reset()` has the result of one
`reset()`. -/
theorem C8_reset_idempotent (T : Type) (o : Optional T) :
    o.reset.has_value = false
    ∧ (o.assign_nullopt .nullopt).has_value = false
    ∧ o.assign_nullopt .nullopt = o.reset
    ∧ (o.has_value = false → o.reset = o)
    ∧ o.reset.reset = o.reset := by
  rcases o with ⟨⟨i, s⟩⟩
  cases i <;>
    simp [Optional.reset, Optional.assign_nullopt, Optional.clear, Optional.has_value,
      Optional.initialized]

/-! ### Copy and move -/

/-- C9, as the header has it: moving from a present `Optional` (move construction, or
move assignment to any destination) gives the destination the value of the source and
leaves the source present, holding what `Type`'s move left in it. -/
theorem C9_move_keeps_source_present (T : Type) (ops : TypeOps T) (dst src : Optional T)
    (hd : dst.wf) (hs : src.wf) (hp : src.has_value = true) :
    ∃ v, src.storage_ = .value_ v
      ∧ Optional.ctor_move ops src
          = .ok (Optional.ctor_value v, Optional.ctor_value (ops.moved_from v))
      ∧ Optional.assign_move ops dst src
          = .ok (Optional.ctor_value v, Optional.ctor_value (ops.moved_from v))
      ∧ (Optional.ctor_value v).value = .ok v
      ∧ (Optional.ctor_value (ops.moved_from v)).has_value = true := by
  rcases dst with ⟨⟨i, s⟩⟩
  rcases src with ⟨⟨j, t⟩⟩
  cases i <;> cases j <;> cases s <;> cases t <;>
    simp [Optional.ctor_move, Optional.assign_move, Optional.ctor_value,
      Optional.has_value, Optional.value, Optional.clear, Optional.initialize,
      Optional.operator_star, Optional.initialized, Optional.contained_val,
      Optional.wf, storage_t.live, bind, Except.bind, pure, Except.pure] at hd hs hp ⊢

/-- The witness of C9: moving an `Optional<std::string>` that holds "abc" into an
empty one. -/
theorem C9_move_keeps_source_present_witness :
    ∃ v, (Optional.ctor_value "abc").storage_ = .value_ v
      ∧ Optional.ctor_move stringOps (Optional.ctor_value "abc")
          = .ok (Optional.ctor_value v, Optional.ctor_value (stringOps.moved_from v))
      ∧ Optional.assign_move stringOps Optional.ctor_default (Optional.ctor_value "abc")
          = .ok (Optional.ctor_value v, Optional.ctor_value (stringOps.moved_from v))
      ∧ (Optional.ctor_value v).value = .ok v
      ∧ (Optional.ctor_value (stringOps.moved_from v)).has_value = true :=
  C9_move_keeps_source_present String stringOps Optional.ctor_default
    (Optional.ctor_value "abc") rfl rfl rfl

/-- C9 as the specification states it fails: after move construction from
`Optional<std::string>("abc")`, and after move assignment from it to an empty
`Optional`, the source is not empty. -/
theorem C9_move_empties_source_counterexample :
    (∃ d s, Optional.ctor_move stringOps (Optional.ctor_value "abc") = .ok (d, s)
        ∧ d.value = .ok "abc" ∧ s.has_value = true ∧ ¬ s.has_value = false)
    ∧ (∃ d s, Optional.assign_move stringOps Optional.ctor_default
          (Optional.ctor_value "abc") = .ok (d, s)
        ∧ d.value = .ok "abc" ∧ s.has_value = true ∧ ¬ s.has_value = false) :=
  ⟨⟨Optional.ctor_value "abc", Optional.ctor_value "", rfl, rfl, rfl, by decide⟩,
   ⟨Optional.ctor_value "abc", Optional.ctor_value "", rfl, rfl, rfl, by decide⟩⟩

/-- C10, as the header has it: for `a` and `b` that satisfy the representation
invariant, in each of the four combinations of empty and present, the copy assignment
`a = b` and the copy construction of `a` from `b` succeed and leave `a` with the flag
and the storage of `b`; `b` is passed by const reference and is the same afterwards.
Then `a == b` is true when `b` is empty and is `Type`'s `==` of the value of `b` with
itself when `b` is present, so it holds whenever `Type`'s `==` is reflexive. -/
theorem C10_copy_makes_equal (T : Type) (ops : TypeOps T) (a b : Optional T)
    (ha : a.wf) (hb : b.wf) :
    (∃ a1, a.assign_copy b = .ok a1
      ∧ a1.has_value = b.has_value ∧ a1.storage_ = b.storage_
      ∧ (b.has_value = false → operator_eq ops a1 b = .ok true)
      ∧ (∀ v, b.storage_ = .value_ v → operator_eq ops a1 b = .ok (ops.eq v v))
      ∧ ((∀ v, ops.eq v v = true) → operator_eq ops a1 b = .ok true))
    ∧ (∃ a2, Optional.ctor_copy b = .ok a2
      ∧ a2.has_value = b.has_value ∧ a2.storage_ = b.storage_
      ∧ (b.has_value = false → operator_eq ops a2 b = .ok true)
      ∧ (∀ v, b.storage_ = .value_ v → operator_eq ops a2 b = .ok (ops.eq v v))
      ∧ ((∀ v, ops.eq v v = true) → operator_eq ops a2 b = .ok true)) := by
  rcases a with ⟨⟨i, s⟩⟩
  rcases b with ⟨⟨j, t⟩⟩
  cases i <;> cases j <;> cases s <;> cases t <;>
    simp [Optional.assign_copy, Optional.ctor_copy, operator_eq, Optional.has_value,
      Optional.operator_bool, Optional.clear, Optional.initialize,
      Optional.operator_star, Optional.initialized, Optional.contained_val,
      Optional.wf, storage_t.live, bind, Except.bind, pure, Except.pure]
      at ha hb ⊢
  all_goals exact fun h => h _

/-- The witness of C10: assigning `Optional<int>(2)` to `Optional<int>(1)`. -/
theorem C10_copy_makes_equal_witness :
    ∃ a1, (Optional.ctor_value (1 : Int)).assign_copy (Optional.ctor_value 2) = .ok a1
      ∧ a1.has_value = (Optional.ctor_value (2 : Int)).has_value
      ∧ a1.storage_ = (Optional.ctor_value (2 : Int)).storage_
      ∧ operator_eq intOps a1 (Optional.ctor_value 2) = .ok true :=
  have h := C10_copy_makes_equal Int intOps (Optional.ctor_value 1) (Optional.ctor_value 2)
    (by decide) (by decide)
  h.1.imp fun _ h1 => ⟨h1.1, h1.2.1, h1.2.2.1, h1.2.2.2.2.2 (fun v => by simp [intOps])⟩

/-- C10 as the specification states it fails: for a floating-point `Type` and `b` holding
a NaN, after the copy assignment `a = b` to an empty `a`, and after copy-constructing
`a` from `b`, `a` holds the value of `b` and `a == b` is false. -/
theorem C10_copy_equal_counterexample :
    (∃ a1, (Optional.ctor_default : Optional (Option Int)).assign_copy
          (Optional.ctor_value none) = .ok a1
        ∧ a1.storage_ = (Optional.ctor_value (none : Option Int)).storage_
        ∧ operator_eq nanOps a1 (Optional.ctor_value none) = .ok false)
    ∧ (∃ a2, Optional.ctor_copy (Optional.ctor_value (none : Option Int)) = .ok a2
        ∧ a2.storage_ = (Optional.ctor_value (none : Option Int)).storage_
        ∧ operator_eq nanOps a2 (Optional.ctor_value none) = .ok false) :=
  ⟨⟨Optional.ctor_value none, rfl, rfl, rfl⟩, ⟨Optional.ctor_value none, rfl, rfl, rfl⟩⟩

/-! ### The representation invariant -/

/-- C11: every state of an owning `Optional` reachable from a constructor through
`emplace`, `reset`, the assignments (from `nullopt`, by copy, by move, from a value) and
`swap` holds a live `Type` exactly when `init_` is set; and from reachable states each
of these operations runs to its end, so the assertion `!init_` in `initialize` never
fails, and leaves the invariant in place. -/
theorem C11_representation_invariant (T : Type) (ops : TypeOps T) (o rhs : Optional T)
    (v : T) (ho : Optional.Reachable ops o) (hr : Optional.Reachable ops rhs) :
    (o.storage_.live = true ↔ o.init_ = true)
    ∧ (∃ o1, o.emplace v = .ok o1 ∧ o1.wf)
    ∧ o.reset.wf
    ∧ (o.assign_nullopt .nullopt).wf
    ∧ (∃ o1, o.assign_value v = .ok o1 ∧ o1.wf)
    ∧ (∃ o1, o.assign_copy rhs = .ok o1 ∧ o1.wf)
    ∧ (∃ p, Optional.assign_move ops o rhs = .ok p ∧ p.1.wf ∧ p.2.wf)
    ∧ (∃ p, Optional.swap ops o rhs = .ok p ∧ p.1.wf ∧ p.2.wf) := by
  have hwo : o.wf := Optional.Reachable.wf_of ho
  have hwr : rhs.wf := Optional.Reachable.wf_of hr
  refine ⟨?_, Optional.emplace_ok_wf o v, Optional.clear_wf o hwo, Optional.clear_wf o hwo,
    Optional.assign_value_ok_wf o v hwo, Optional.assign_copy_ok_wf o rhs hwo hwr,
    Optional.assign_move_ok_wf ops o rhs hwo hwr,
    ⟨(rhs, o), Optional.swap_eq ops o rhs hwo hwr, hwr, hwo⟩⟩
  unfold Optional.wf at hwo
  rw [hwo]

/-- The witness of C11: an `Optional<int>` that was default-constructed, then given 3
by `emplace`, then `reset`, against one constructed from 5. -/
theorem C11_representation_invariant_witness :
    (((Optional.ctor_value (3 : Int)).reset).storage_.live = true
        ↔ ((Optional.ctor_value (3 : Int)).reset).init_ = true)
    ∧ (∃ p, Optional.swap intOps (Optional.ctor_value (3 : Int)).reset
          (Optional.ctor_value 5) = .ok p ∧ p.1.wf ∧ p.2.wf) :=
  have h := C11_representation_invariant Int intOps (Optional.ctor_value (3 : Int)).reset
    (Optional.ctor_value 5) 0
    (.reset (.emplace (o := Optional.ctor_default) 3 .ctor_default rfl))
    (.ctor_value 5)
  ⟨h.1, h.2.2.2.2.2.2.2⟩

/-! ### Callbacks -/

/-- C12: on an `Optional` that satisfies the invariant, `then(f)` applies `f` once to the
stored value when one is present and leaves the program state alone when none is;
`then(f1, f2)` applies `f1` once to the stored value when present and `f2` once when
empty, never both; the `Optional` is present afterwards exactly if it was before.  The
same holds for `Optional<Type&>`, where the value is that of the object referred to. -/
theorem C12_then_dispatch (T σ : Type) (o : Optional T) (m : Memory T)
    (r : OptionalRef T) (f f1 : T → σ → T × σ) (g g1 : T → σ → σ) (f2 : σ → σ) (w : σ)
    (ho : o.wf) :
    (∀ v, o.has_value = true → o.storage_ = .value_ v →
        o.then f w = .ok (Optional.ctor_value (f v w).1, (f v w).2)
        ∧ o.then_const g w = .ok (g v w)
        ∧ o.then2 f1 f2 w = .ok (Optional.ctor_value (f1 v w).1, (f1 v w).2)
        ∧ o.then2_const g1 f2 w = .ok (g1 v w))
    ∧ (o.has_value = false →
        o.then f w = .ok (o, w)
        ∧ o.then_const g w = .ok w
        ∧ o.then2 f1 f2 w = .ok (o, f2 w)
        ∧ o.then2_const g1 f2 w = .ok (f2 w))
    ∧ (∃ p, o.then f w = .ok p ∧ p.1.has_value = o.has_value)
    ∧ (∃ p, o.then2 f1 f2 w = .ok p ∧ p.1.has_value = o.has_value)
    ∧ (∀ a v, r.ref = some a → m a = some v →
        r.then m f w = .ok (Function.update m a (some (f v w).1), (f v w).2)
        ∧ r.then_const m g w = .ok (g v w)
        ∧ r.then2 m f1 f2 w = .ok (Function.update m a (some (f1 v w).1), (f1 v w).2)
        ∧ r.then2_const m g1 f2 w = .ok (g1 v w))
    ∧ (r.has_value = false →
        r.then m f w = .ok (m, w)
        ∧ r.then_const m g w = .ok w
        ∧ r.then2 m f1 f2 w = .ok (m, f2 w)
        ∧ r.then2_const m g1 f2 w = .ok (f2 w)) := by
  refine ⟨?_, ?_, ?_, ?_, ?_, ?_⟩
  · intro v hv hs
    have hi : o.init_ = true := hv
    simp [Optional.then, Optional.then_const, Optional.then2, Optional.then2_const,
      Optional.value, Optional.initialized, Optional.contained_val, Optional.ctor_value,
      hi, hs, bind, Except.bind, pure, Except.pure]
  · intro hv
    have hi : o.init_ = false := hv
    simp [Optional.then, Optional.then_const, Optional.then2, Optional.then2_const,
      Optional.initialized, hi, pure, Except.pure]
  · rcases o with ⟨⟨i, s⟩⟩
    cases i <;> cases s <;>
      simp [Optional.then, Optional.value, Optional.has_value, Optional.initialized,
        Optional.contained_val, Optional.wf, storage_t.live, bind, Except.bind, pure,
        Except.pure] at ho ⊢
  · rcases o with ⟨⟨i, s⟩⟩
    cases i <;> cases s <;>
      simp [Optional.then2, Optional.value, Optional.has_value, Optional.initialized,
        Optional.contained_val, Optional.wf, storage_t.live, bind, Except.bind, pure,
        Except.pure] at ho ⊢
  · intro a v ha hm
    simp [OptionalRef.then, OptionalRef.then_const, OptionalRef.then2,
      OptionalRef.then2_const, OptionalRef.call_on_value, OptionalRef.operator_bool,
      OptionalRef.value, ha, hm, bind, Except.bind, pure, Except.pure]
  · intro hv
    have hn : r.ref = none := by
      simpa [OptionalRef.has_value] using hv
    simp [OptionalRef.then, OptionalRef.then_const, OptionalRef.then2,
      OptionalRef.then2_const, OptionalRef.operator_bool, hn, pure, Except.pure]

/-- The witness of C12: the program state is the list of the values the callbacks were
called with (`f2` records 0); on `Optional<int>(7)` the list ends up as `[7]`, one call,
and on an empty `Optional<int>` as `[0]` for the two-callback form and `[]` for the
one-callback form. -/
theorem C12_then_dispatch_witness :
    (Optional.ctor_value (7 : Int)).then_const (fun v l => l ++ [v]) [] = .ok [7]
    ∧ (Optional.ctor_value (7 : Int)).then2_const (fun v l => l ++ [v])
        (fun l => l ++ [0]) [] = .ok [7]
    ∧ (Optional.ctor_default : Optional Int).then_const (fun v l => l ++ [v]) [] = .ok []
    ∧ (Optional.ctor_default : Optional Int).then2_const (fun v l => l ++ [v])
        (fun l => l ++ [0]) [] = .ok [0] :=
  have hp := C12_then_dispatch Int (List Int) (Optional.ctor_value 7) (fun _ => none)
    OptionalRef.ctor_default (fun v l => (v, l ++ [v])) (fun v l => (v, l ++ [v]))
    (fun v l => l ++ [v]) (fun v l => l ++ [v]) (fun l => l ++ [0]) [] (by decide)
  have he := C12_then_dispatch Int (List Int) Optional.ctor_default (fun _ => none)
    OptionalRef.ctor_default (fun v l => (v, l ++ [v])) (fun v l => (v, l ++ [v]))
    (fun v l => l ++ [v]) (fun v l => l ++ [v]) (fun l => l ++ [0]) [] (by decide)
  ⟨(hp.1 7 rfl rfl).2.1, (hp.1 7 rfl rfl).2.2.2, (he.2.1 rfl).2.1, (he.2.1 rfl).2.2.2⟩

/-! ### The reference variant -/

/-- C13: on an `Optional<Type&>`, assignment from another `Optional<Type&>`,
`emplace(v)`, `reset(v)`, `reset()` and assignment from `nullopt` return the memory they
were given, with every object in it as it was, none added and none removed, and only
set the pointer: to the pointer of the source, to the address of `v`, or to null. -/
theorem C13_reference_rebinds_only (T : Type) (m : Memory T) (o rhs : OptionalRef T)
    (v : Addr) :
    o.assign m rhs = (m, { ref := rhs.ref })
    ∧ o.emplace m v = (m, { ref := some v })
    ∧ o.reset_ref m v = (m, { ref := some v })
    ∧ o.reset m = (m, { ref := none })
    ∧ o.assign_nullopt m .nullopt = (m, { ref := none })
    ∧ (∀ a, (o.assign m rhs).1 a = m a ∧ (o.emplace m v).1 a = m a
        ∧ (o.reset_ref m v).1 a = m a ∧ (o.reset m).1 a = m a
        ∧ (o.assign_nullopt m .nullopt).1 a = m a) := by
  refine ⟨rfl, rfl, rfl, rfl, rfl, ?_⟩
  intro a
  exact ⟨rfl, rfl, rfl, rfl, rfl⟩

/-! ### Equality and swap -/

/-- C14: when `Type`'s `==` is reflexive and symmetric, so is `==` on `Optional`s that
satisfy the invariant: `Optional(v) == Optional(v)`, `Optional() == Optional()`,
`x == x`, `x == y` implies `y == x`, and `Optional(v) != Optional()` for every `v`. -/
theorem C14_operator_eq_refl_symm (T : Type) (ops : TypeOps T) (x y : Optional T) (v : T)
    (hrefl : ∀ a, ops.eq a a = true) (hsymm : ∀ a b, ops.eq a b = true → ops.eq b a = true)
    (hx : x.wf) (hy : y.wf) :
    operator_eq ops (Optional.ctor_value v) (Optional.ctor_value v) = .ok true
    ∧ operator_eq ops (Optional.ctor_default : Optional T) Optional.ctor_default = .ok true
    ∧ operator_eq ops x x = .ok true
    ∧ (operator_eq ops x y = .ok true → operator_eq ops y x = .ok true)
    ∧ operator_ne ops (Optional.ctor_value v) Optional.ctor_default = .ok true
    ∧ operator_ne ops Optional.ctor_default (Optional.ctor_value v) = .ok true := by
  rcases x with ⟨⟨i, s⟩⟩
  rcases y with ⟨⟨j, t⟩⟩
  cases i <;> cases j <;> cases s <;> cases t <;>
    simp [operator_eq, operator_ne, Optional.ctor_value, Optional.ctor_default,
      Optional.operator_bool, Optional.operator_star, Optional.initialized,
      Optional.contained_val, Optional.wf, storage_t.live, bind, Except.bind, pure,
      Except.pure, hrefl] at hx hy ⊢
  exact hsymm _ _

/-- The witness of C14: `Optional<int>(1)` and `Optional<int>(2)`. -/
theorem C14_operator_eq_refl_symm_witness :
    operator_eq intOps (Optional.ctor_value 1) (Optional.ctor_value 1) = .ok true
    ∧ operator_ne intOps (Optional.ctor_value 2) Optional.ctor_default = .ok true :=
  have h := C14_operator_eq_refl_symm Int intOps (Optional.ctor_value 1)
    (Optional.ctor_value 2) 2 (fun a => by simp [intOps])
    (fun a b hab => by simp [intOps] at hab ⊢; exact hab.symm) (by decide) (by decide)
  ⟨h.2.2.1, h.2.2.2.2.1⟩

/-- C15: for `x` and `y` that satisfy the invariant, in each of the four combinations of
empty and present, `x.swap(y)` and `std::swap(x, y)` succeed and leave in `x` what `y`
held and in `y` what `x` held; swapping twice restores both. -/
theorem C15_swap_exchanges (T : Type) (ops : TypeOps T) (x y : Optional T)
    (hx : x.wf) (hy : y.wf) :
    Optional.swap ops x y = .ok (y, x)
    ∧ std.swap ops x y = .ok (y, x)
    ∧ (Optional.swap ops x y >>= fun p => Optional.swap ops p.1 p.2) = .ok (x, y) := by
  have h1 := Optional.swap_eq ops x y hx hy
  have h2 := Optional.swap_eq ops y x hy hx
  refine ⟨h1, h1, ?_⟩
  rw [h1]
  exact h2

/-- The witness of C15: swapping `Optional<std::string>("ab")` with an empty one. -/
theorem C15_swap_exchanges_witness :
    Optional.swap stringOps (Optional.ctor_value "ab") Optional.ctor_default
      = .ok (Optional.ctor_default, Optional.ctor_value "ab") :=
  (C15_swap_exchanges String stringOps (Optional.ctor_value "ab") Optional.ctor_default
    rfl rfl).1

/-! ### The byte reader -/

/-- C16: on an open reader over `N` bytes with the cursor at `pos`, `read` of a size
`size ≥ 0` returns `min(size, N - pos)`, puts that many bytes from `pos` on into the
buffer and advances the cursor by that count; at cursor 0 a request of `M ≤ N` returns
`M` and leaves the cursor at `M`, and a request of more than `N - pos` returns `N - pos`
and leaves the cursor at `N`. -/
theorem C16_read_transfers_min (r : BinaryReader) (size : Int)
    (hopen : r.isOpened = true) (hwf : r.wf) (hsize : 0 ≤ size) :
    (r.read size).1 = min size (r.size - r.getPos)
    ∧ (r.read size).2.1
        = (r.source.drop r.getPos.toNat).take (min size (r.size - r.getPos)).toNat
    ∧ ((r.read size).2.1.length : Int) = (r.read size).1
    ∧ (r.read size).2.2.getPos = r.getPos + (r.read size).1
    ∧ (r.getPos = 0 → size ≤ r.size →
        (r.read size).1 = size ∧ (r.read size).2.2.getPos = size)
    ∧ (r.size - r.getPos < size →
        (r.read size).1 = r.size - r.getPos ∧ (r.read size).2.2.getPos = r.size) := by
  rcases r with ⟨o, src, p⟩
  simp only [BinaryReader.isOpened] at hopen
  subst hopen
  obtain ⟨h0, h1⟩ := hwf
  simp only at h0 h1
  have hlen := BinaryReader.length_take_drop src p size h0 h1 hsize
  have htake := BinaryReader.take_drop_min src p size h0 h1 hsize
  simp only [BinaryReader.read, BinaryReader.size, BinaryReader.getPos, Bool.not_true,
    Bool.false_eq_true, if_false, if_true]
  refine ⟨hlen, htake, ?_, ?_, ?_, ?_⟩
  · trivial
  · trivial
  · intro hp hle
    rw [hlen]
    omega
  · intro hlt
    rw [hlen]
    omega

/-- The witness of C16: the source `0123456789`, opened, and `read(buf, 4)`: the count
is 4, the buffer holds `0123`, the cursor is at 4. -/
theorem C16_read_transfers_min_witness :
    ((BinaryReader.open BinaryReader.ctor_default (some digits)).2.read 4).1
        = min 4 ((BinaryReader.open BinaryReader.ctor_default (some digits)).2.size
            - (BinaryReader.open BinaryReader.ctor_default (some digits)).2.getPos)
    ∧ ((BinaryReader.open BinaryReader.ctor_default (some digits)).2.read 4).2.1
        = [48, 49, 50, 51]
    ∧ ((BinaryReader.open BinaryReader.ctor_default (some digits)).2.read 4).2.2.getPos
        = 4 :=
  have h := C16_read_transfers_min
    (BinaryReader.open BinaryReader.ctor_default (some digits)).2 4 rfl (by decide)
    (by decide)
  ⟨h.1, by decide, (h.2.2.2.2.1 rfl (by decide)).2⟩

/-- C17: in every state of the reader and for every size and position, `getPos()` after
`lookahead` is `getPos()` before it, and the count and the bytes are those `read` gives
for the same arguments. -/
theorem C17_lookahead_keeps_cursor (r : BinaryReader) (pos size : Int) :
    (r.lookahead size).2.2.getPos = r.getPos
    ∧ (r.lookahead size).2.2 = r
    ∧ (r.lookahead size).1 = (r.read size).1
    ∧ (r.lookahead size).2.1 = (r.read size).2.1
    ∧ (r.lookahead_at pos size).2.2.getPos = r.getPos
    ∧ (r.lookahead_at pos size).2.2 = r
    ∧ (r.lookahead_at pos size).1 = (r.read_at pos size).1
    ∧ (r.lookahead_at pos size).2.1 = (r.read_at pos size).2.1 := by
  rcases r with ⟨o, src, p⟩
  cases o
  · simp [BinaryReader.lookahead, BinaryReader.lookahead_at, BinaryReader.read,
      BinaryReader.read_at, BinaryReader.setPos, BinaryReader.getPos]
  · by_cases hp : pos < 0 ∨ pos > (src.length : Int)
    · simp [BinaryReader.lookahead, BinaryReader.lookahead_at, BinaryReader.read,
        BinaryReader.read_at, BinaryReader.setPos, BinaryReader.getPos,
        BinaryReader.size, hp]
    · simp [BinaryReader.lookahead, BinaryReader.lookahead_at, BinaryReader.read,
        BinaryReader.read_at, BinaryReader.setPos, BinaryReader.getPos,
        BinaryReader.size, hp]

/-- C18: on an open reader of size `N`, `setPos(p)` returns false and leaves the reader
as it is when `p < 0` or `p > N`, and returns true and sets the cursor to `p` when
`0 ≤ p ≤ N`, `p == N` included. -/
theorem C18_setPos_range (r : BinaryReader) (p : Int) (hopen : r.isOpened = true) :
    ((p < 0 ∨ r.size < p) → r.setPos p = (false, r) ∧ (r.setPos p).2.getPos = r.getPos)
    ∧ ((0 ≤ p ∧ p ≤ r.size) → (r.setPos p).1 = true ∧ (r.setPos p).2.getPos = p)
    ∧ (r.setPos r.size).1 = true := by
  rcases r with ⟨o, src, q⟩
  simp only [BinaryReader.isOpened] at hopen
  subst hopen
  have hl : ¬ ((src.length : Int) < 0) := by omega
  have hsz : BinaryReader.size { opened := true, source := src, pos := q }
      = (src.length : Int) := rfl
  rw [hsz]
  refine ⟨?_, ?_, ?_⟩
  · intro h
    have h2 : p < 0 ∨ p > (src.length : Int) := h
    simp [BinaryReader.setPos, BinaryReader.size, h2]
  · intro h
    have h2 : ¬ (p < 0 ∨ p > (src.length : Int)) := by omega
    simp [BinaryReader.setPos, BinaryReader.size, BinaryReader.getPos, h2]
  · simp [BinaryReader.setPos, BinaryReader.size, hl]

/-- The witness of C18: the source `0123456789`, opened; `setPos(10)` is accepted and
`setPos(11)` is refused. -/
theorem C18_setPos_range_witness :
    ((BinaryReader.open BinaryReader.ctor_default (some digits)).2.setPos 10).1 = true
    ∧ ((BinaryReader.open BinaryReader.ctor_default (some digits)).2.setPos 11).1 = false :=
  have h10 := C18_setPos_range
    (BinaryReader.open BinaryReader.ctor_default (some digits)).2 10 rfl
  have h11 := C18_setPos_range
    (BinaryReader.open BinaryReader.ctor_default (some digits)).2 11 rfl
  ⟨(h10.2.1 (by decide)).1, by rw [(h11.1 (by decide)).1]⟩

/-- C19: on an open reader over `N` bytes, `setPos(0)` succeeds and `readWhole()` after
it returns the `N` bytes of the source and leaves the cursor at `N`; from any cursor
`readWhole()` returns the bytes from the cursor to the end. -/
theorem C19_readWhole_all (r : BinaryReader) (hopen : r.isOpened = true) :
    (r.setPos 0).1 = true
    ∧ (r.setPos 0).2.readWhole.1 = r.source
    ∧ ((r.setPos 0).2.readWhole.1.length : Int) = r.size
    ∧ (r.setPos 0).2.readWhole.2.getPos = r.size
    ∧ r.readWhole.1 = r.source.drop r.getPos.toNat
    ∧ r.readWhole.2.getPos = r.size := by
  rcases r with ⟨o, src, q⟩
  simp only [BinaryReader.isOpened] at hopen
  subst hopen
  have hl : ¬ ((src.length : Int) < 0) := by omega
  simp [BinaryReader.setPos, BinaryReader.readWhole, BinaryReader.size,
    BinaryReader.getPos, hl]

/-- The witness of C19: the source `0123456789`, opened, read to the cursor 4, then
`setPos(0)` and `readWhole()`. -/
theorem C19_readWhole_all_witness :
    ((((BinaryReader.open BinaryReader.ctor_default (some digits)).2.read 4).2.2.setPos
        0).2.readWhole.1 = digits)
    ∧ ((((BinaryReader.open BinaryReader.ctor_default (some digits)).2.read 4).2.2.setPos
        0).2.readWhole.2.getPos = 10) :=
  have h := C19_readWhole_all
    ((BinaryReader.open BinaryReader.ctor_default (some digits)).2.read 4).2.2 rfl
  ⟨h.2.1, h.2.2.2.1⟩

/-- C20: on a closed reader `read`, `lookahead` and `skip` return 0, transfer no byte and
change nothing, `setPos` returns false and changes nothing, `size()` and `getPos()` are
0, and `close()` leaves it closed; `close()` twice is `close()` once. -/
theorem C20_closed_reader_noop (r : BinaryReader) (pos size : Int)
    (hclosed : r.isOpened = false) :
    r.read size = (0, [], r)
    ∧ r.read_at pos size = (0, [], r)
    ∧ r.lookahead size = (0, [], r)
    ∧ r.lookahead_at pos size = (0, [], r)
    ∧ r.skip size = (0, r)
    ∧ r.setPos pos = (false, r)
    ∧ r.size = 0
    ∧ r.getPos = 0
    ∧ r.close.isOpened = false
    ∧ r.close.close = r.close := by
  rcases r with ⟨o, src, q⟩
  simp only [BinaryReader.isOpened] at hclosed
  subst hclosed
  simp [BinaryReader.read, BinaryReader.read_at, BinaryReader.lookahead,
    BinaryReader.lookahead_at, BinaryReader.skip, BinaryReader.setPos,
    BinaryReader.size, BinaryReader.getPos, BinaryReader.close, BinaryReader.isOpened]

/-- The witness of C20: a default-constructed reader. -/
theorem C20_closed_reader_noop_witness :
    BinaryReader.ctor_default.read 3 = (0, [], BinaryReader.ctor_default)
    ∧ BinaryReader.ctor_default.setPos 0 = (false, BinaryReader.ctor_default) :=
  have h := C20_closed_reader_noop BinaryReader.ctor_default 0 3 rfl
  ⟨h.1, h.2.2.2.2.2.1⟩

/-- C21: `BinaryReader::supportsLookahead()` returns true in every state of the reader,
open or closed. -/
theorem C21_supportsLookahead_true (r : BinaryReader) :
    r.supportsLookahead = true
    ∧ (BinaryReader.ctor_default).supportsLookahead = true
    ∧ (r.close).supportsLookahead = true := by
  exact ⟨rfl, rfl, rfl⟩

/-! ### `Utility.hpp` -/

/-- C22: for an ordering in which `a < b` excludes `b < a`, `Max(a, b)` is `b` when
`a < b`, is `a` when `b < a`, is `a` when neither is less than the other, and is never
less than `a` or than `b`. -/
theorem C22_Max_greater (T : Type) (ops : TypeOps T) (a b : T)
    (hasymm : ∀ x y, ops.lt x y = true → ops.lt y x = false) :
    (ops.lt a b = true → Max ops a b = b)
    ∧ (ops.lt b a = true → Max ops a b = a)
    ∧ (ops.lt a b = false → ops.lt b a = false → Max ops a b = a)
    ∧ ops.lt (Max ops a b) a = false
    ∧ ops.lt (Max ops a b) b = false := by
  have haa : ops.lt a a = false := by
    cases h : ops.lt a a with
    | false => rfl
    | true => have := hasymm a a h; rw [h] at this; exact this
  have hbb : ops.lt b b = false := by
    cases h : ops.lt b b with
    | false => rfl
    | true => have := hasymm b b h; rw [h] at this; exact this
  cases hab : ops.lt a b with
  | false => simp [Max, hab, haa]
  | true => simp [Max, hab, hbb, hasymm a b hab]

/-- The witness of C22: `Max(3, 8)` and `Max(8, 3)` on `int`. -/
theorem C22_Max_greater_witness :
    Max intOps 3 8 = 8 ∧ Max intOps 8 3 = 8 :=
  ⟨(C22_Max_greater Int intOps 3 8 intOps_strictWeak.asymm).1 (by decide),
   (C22_Max_greater Int intOps 8 3 intOps_strictWeak.asymm).2.1 (by decide)⟩

/-- C23: for an ordering in which `a < b` excludes `b < a`, `Min(a, b)` is `b` when
`b < a`, is `a` when `a < b`, is `a` when neither is less than the other, and neither
`a` nor `b` is less than it. -/
theorem C23_Min_lesser (T : Type) (ops : TypeOps T) (a b : T)
    (hasymm : ∀ x y, ops.lt x y = true → ops.lt y x = false) :
    (ops.lt b a = true → Min ops a b = b)
    ∧ (ops.lt a b = true → Min ops a b = a)
    ∧ (ops.lt a b = false → ops.lt b a = false → Min ops a b = a)
    ∧ ops.lt a (Min ops a b) = false
    ∧ ops.lt b (Min ops a b) = false := by
  have haa : ops.lt a a = false := by
    cases h : ops.lt a a with
    | false => rfl
    | true => have := hasymm a a h; rw [h] at this; exact this
  have hbb : ops.lt b b = false := by
    cases h : ops.lt b b with
    | false => rfl
    | true => have := hasymm b b h; rw [h] at this; exact this
  cases hba : ops.lt b a with
  | false => simp [Min, hba, haa]
  | true => simp [Min, hba, hbb, hasymm b a hba]

/-- The witness of C23: `Min(3, 8)` and `Min(8, 3)` on `int`. -/
theorem C23_Min_lesser_witness :
    Min intOps 3 8 = 3 ∧ Min intOps 8 3 = 3 :=
  ⟨(C23_Min_lesser Int intOps 3 8 intOps_strictWeak.asymm).2.1 (by decide),
   (C23_Min_lesser Int intOps 8 3 intOps_strictWeak.asymm).1 (by decide)⟩

/-- C24: for a strict weak ordering and a non-empty list, `Max(ilist)` returns an
element of the list that no element of the list exceeds, and every element to the left
of it is strictly less, so of several greatest elements it is the leftmost. -/
theorem C24_Max_ilist_leftmost_greatest (T : Type) (ops : TypeOps T) (ilist : List T)
    (hord : ops.StrictWeak) (hne : ilist ≠ []) :
    ∃ pre x post, ilist = pre ++ x :: post
      ∧ Max_ilist ops ilist = some x
      ∧ (∀ y ∈ ilist, ops.lt x y = false)
      ∧ (∀ y ∈ pre, ops.lt y x = true) := by
  obtain ⟨pre, x, post, hl, hi, h1, h2⟩ := std.max_element_spec hord ilist hne
  refine ⟨pre, x, post, hl, ?_, ?_, h1⟩
  · rw [Max_ilist, hi, hl]
    exact Container.getElem?_after pre x post
  · intro y hy
    rw [hl] at hy
    rcases List.mem_append.mp hy with hy | hy
    · exact hord.asymm y x (h1 y hy)
    · rcases List.mem_cons.mp hy with hy | hy
      · rw [hy]; exact hord.irrefl x
      · exact h2 y hy

/-- The witness of C24: `Max({2, 9, 4, 9})` on `int`. -/
theorem C24_Max_ilist_leftmost_greatest_witness :
    Max_ilist intOps [2, 9, 4, 9] = some 9 ∧ std.max_element intOps [2, 9, 4, 9] = 1
    ∧ ∃ pre x post, [2, 9, 4, 9] = pre ++ x :: post
      ∧ Max_ilist intOps [2, 9, 4, 9] = some x
      ∧ (∀ y ∈ [2, 9, 4, 9], intOps.lt x y = false)
      ∧ (∀ y ∈ pre, intOps.lt y x = true) :=
  ⟨by decide, by decide,
   C24_Max_ilist_leftmost_greatest Int intOps [2, 9, 4, 9] intOps_strictWeak (by simp)⟩

/-- C25: for a strict weak ordering and a non-empty list, `Min(ilist)` returns an
element of the list that exceeds no element of the list, and every element to the left
of it is strictly greater, so of several least elements it is the leftmost. -/
theorem C25_Min_ilist_leftmost_least (T : Type) (ops : TypeOps T) (ilist : List T)
    (hord : ops.StrictWeak) (hne : ilist ≠ []) :
    ∃ pre x post, ilist = pre ++ x :: post
      ∧ Min_ilist ops ilist = some x
      ∧ (∀ y ∈ ilist, ops.lt y x = false)
      ∧ (∀ y ∈ pre, ops.lt x y = true) := by
  obtain ⟨pre, x, post, hl, hi, h1, h2⟩ := std.max_element_spec hord.flip ilist hne
  refine ⟨pre, x, post, hl, ?_, ?_, h1⟩
  · rw [Min_ilist, std.min_element_eq, hi, hl]
    exact Container.getElem?_after pre x post
  · intro y hy
    rw [hl] at hy
    rcases List.mem_append.mp hy with hy | hy
    · exact hord.asymm x y (h1 y hy)
    · rcases List.mem_cons.mp hy with hy | hy
      · rw [hy]; exact hord.irrefl x
      · exact h2 y hy

/-- The witness of C25: `Min({5, 1, 7, 1})` on `int`. -/
theorem C25_Min_ilist_leftmost_least_witness :
    Min_ilist intOps [5, 1, 7, 1] = some 1 ∧ std.min_element intOps [5, 1, 7, 1] = 1
    ∧ ∃ pre x post, [5, 1, 7, 1] = pre ++ x :: post
      ∧ Min_ilist intOps [5, 1, 7, 1] = some x
      ∧ (∀ y ∈ [5, 1, 7, 1], intOps.lt y x = false)
      ∧ (∀ y ∈ pre, intOps.lt x y = true) :=
  ⟨by decide, by decide,
   C25_Min_ilist_leftmost_least Int intOps [5, 1, 7, 1] intOps_strictWeak (by simp)⟩

/-- C26: in a total order, with `min <= max`, the result of `Clamp(x, min, max)` is in
the range, is `min` when `x < min`, is `max` when `max < x`, and is `x` exactly when
`InRange(x, min, max)`. -/
theorem C26_Clamp_in_range (T : Type) (ops : TypeOps T) (x min max : T)
    (hord : ops.TotalOrder) (hmm : ops.le min max = true) :
    InRange ops (Clamp ops x min max) min max = true
    ∧ (ops.lt x min = true → Clamp ops x min max = min)
    ∧ (ops.lt max x = true → Clamp ops x min max = max)
    ∧ (Clamp ops x min max = x ↔ InRange ops x min max = true) := by
  have hmm2 : ops.lt max min = false := by
    have := hord.le_iff min max
    rw [hmm] at this
    simpa using this.symm
  cases h1 : ops.lt x min with
  | true =>
    have hne : min ≠ x := by
      intro he
      rw [he, hord.lt_irrefl] at h1
      cases h1
    have h2 : ops.lt max x = false := by
      cases h2 : ops.lt max x with
      | false => rfl
      | true => rw [hord.lt_trans max x min h2 h1] at hmm2; cases hmm2
    simp [Clamp, InRange, h1, h2, hord.le_iff, hord.lt_irrefl, hmm2, hne]
  | false =>
    cases h2 : ops.lt max x with
    | true =>
      have hne : max ≠ x := by
        intro he
        rw [he, hord.lt_irrefl] at h2
        cases h2
      simp [Clamp, InRange, h1, h2, hord.le_iff, hord.lt_irrefl, hmm2, hne]
    | false =>
      simp [Clamp, InRange, h1, h2, hord.le_iff]

/-- The witness of C26: `Clamp(12, 0, 10)` and `Clamp(4, 0, 10)` on `int`. -/
theorem C26_Clamp_in_range_witness :
    Clamp intOps 12 0 10 = 10
    ∧ (Clamp intOps 4 0 10 = 4 ↔ InRange intOps 4 0 10 = true) :=
  ⟨(C26_Clamp_in_range Int intOps 12 0 10 intOps_totalOrder (by decide)).2.2.1
      (by decide),
   (C26_Clamp_in_range Int intOps 4 0 10 intOps_totalOrder (by decide)).2.2.2⟩

/-- C27, as the header has it: after `Erase_if(c, pred)` the container holds the
elements of `c` for which `pred` is false, in their order in `c`, and none that
satisfies `pred`; `Erase(c, val)` leaves in the same way the elements that are not
`== val` when `val` refers to an object outside `c`. -/
theorem C27_Erase_if_filters (T : Type) (ops : TypeOps T) (c : List T) (pred : T → Bool)
    (val : T) :
    Erase_if ops c pred = c.filter (fun x => !pred x)
    ∧ (∀ x ∈ Erase_if ops c pred, pred x = false)
    ∧ List.Sublist (Erase_if ops c pred) c
    ∧ Erase ops c (.outside val) = some (c.filter (fun x => !ops.eq x val))
    ∧ (∀ x ∈ c.filter (fun x => !ops.eq x val), ops.eq x val = false)
    ∧ List.Sublist (c.filter (fun x => !ops.eq x val)) c := by
  have h1 : Erase_if ops c pred = c.filter (fun x => !pred x) :=
    Container.erase_remove_if_loop ops pred c
  have h2 : Erase ops c (.outside val) = some (c.filter (fun x => !ops.eq x val)) := by
    simp only [Erase, std.remove, std.remove_loop_outside]
    rw [Container.erase_remove_if_loop ops (fun x => ops.eq x val) c]
  refine ⟨h1, ?_, ?_, h2, ?_, ?_⟩
  · intro x hx
    rw [h1] at hx
    simpa using (List.mem_filter.mp hx).2
  · rw [h1]; exact List.filter_sublist c
  · intro x hx
    simpa using (List.mem_filter.mp hx).2
  · exact List.filter_sublist c

/-- C27 as the specification states it fails: in `Erase(c, c[0])` on `{1, 2, 1, 2}` the
value `val` refers to the first element, which the first move overwrites with 2; the
container is left as `{2, 1}`, which still holds the value 1 that was asked to go, where
the elements not equal to 1 are `{2, 2}`. -/
theorem C27_Erase_aliased_counterexample :
    Erase intOps [1, 2, 1, 2] (.element 0) = some [2, 1]
    ∧ [1, 2, 1, 2].filter (fun x => !intOps.eq x 1) = [2, 2]
    ∧ Erase intOps [1, 2, 1, 2] (.element 0)
        ≠ some ([1, 2, 1, 2].filter (fun x => !intOps.eq x 1)) := by
  decide

/-! ### `Format.hpp` -/

/-- C30, what the header does: for `int x = 42` at the address 7 and an `Optional<int&>`
bound to it, `value()` gives the object, 42, while the expression `operator *` returns
is the pointer, the address 7, the same as `operator ->` returns. -/
theorem C30_operator_star_returns_pointer :
    (OptionalRef.ctor_ref 7 : OptionalRef Int).value
        (fun a => if a = 7 then some 42 else none) = .ok 42
    ∧ (OptionalRef.ctor_ref 7 : OptionalRef Int).operator_star = .ok 7
    ∧ (OptionalRef.ctor_ref 7 : OptionalRef Int).operator_arrow = .ok 7
    ∧ Memory.read (fun a => if a = 7 then some (42 : Int) else none) 7 = .ok 42 :=
  ⟨rfl, rfl, rfl, rfl⟩

/-! ### The ordering of `Optional`s -/

/-- C31: when `Type`'s `<` is a strict total order and `Type`'s `==` is equality, then on
`Optional`s that satisfy the invariant `<` is irreflexive and transitive, exactly one of
`x < y`, `x == y`, `y < x` is true, `x <= y` is true exactly if `x < y` or `x == y` is,
`x >= y` exactly if `x > y` or `x == y` is, and `x > y` is `y < x`. -/
theorem C31_operators_strict_total_order (T : Type) (ops : TypeOps T)
    (x y z : Optional T) (hord : ops.StrictTotal) (hx : x.wf) (hy : y.wf) (hz : z.wf) :
    operator_lt ops x x = .ok false
    ∧ (operator_lt ops x y = .ok true → operator_lt ops y z = .ok true →
        operator_lt ops x z = .ok true)
    ∧ ((operator_lt ops x y = .ok true ∧ operator_eq ops x y = .ok false
          ∧ operator_lt ops y x = .ok false)
        ∨ (operator_lt ops x y = .ok false ∧ operator_eq ops x y = .ok true
          ∧ operator_lt ops y x = .ok false)
        ∨ (operator_lt ops x y = .ok false ∧ operator_eq ops x y = .ok false
          ∧ operator_lt ops y x = .ok true))
    ∧ (operator_le ops x y = .ok true
        ↔ operator_lt ops x y = .ok true ∨ operator_eq ops x y = .ok true)
    ∧ (operator_ge ops x y = .ok true
        ↔ operator_gt ops x y = .ok true ∨ operator_eq ops x y = .ok true)
    ∧ operator_gt ops x y = operator_lt ops y x
    ∧ (operator_eq ops x y = .ok true ↔ x = y) := by
  refine ⟨?_, ?_, operator_trichotomy hord x y hx hy, ?_, ?_, rfl, ?_⟩
  · rcases Optional.wf_cases x hx with rfl | ⟨a, rfl⟩
    · rfl
    · rw [(operator_eq_lt_value_value ops a a).2, hord.lt_irrefl]
  · rcases Optional.wf_cases x hx with rfl | ⟨a, rfl⟩ <;>
      rcases Optional.wf_cases y hy with rfl | ⟨b, rfl⟩ <;>
      rcases Optional.wf_cases z hz with rfl | ⟨c, rfl⟩
    · intro h1 _; exact h1
    · intro _ h2; exact h2
    · intro _ h2; exact h2
    · intro _ _; rfl
    · intro h1 _; exact h1
    · intro h1 _; cases h1
    · intro _ h2; exact h2
    · rw [(operator_eq_lt_value_value ops a b).2, (operator_eq_lt_value_value ops b c).2,
        (operator_eq_lt_value_value ops a c).2]
      intro h1 h2
      have h3 : ops.lt a b = true := by injection h1
      have h4 : ops.lt b c = true := by injection h2
      rw [hord.lt_trans a b c h3 h4]
  · have hle : operator_le ops x y = (operator_lt ops y x >>= fun r => pure (!r)) := rfl
    rw [hle]
    rcases operator_trichotomy hord x y hx hy with ⟨h1, h2, h3⟩ | ⟨h1, h2, h3⟩ | ⟨h1, h2, h3⟩ <;>
      rw [h1, h2, h3] <;> simp [bind, Except.bind, pure, Except.pure]
  · have hge : operator_ge ops x y = (operator_lt ops x y >>= fun r => pure (!r)) := rfl
    have hgt : operator_gt ops x y = operator_lt ops y x := rfl
    rw [hge, hgt]
    rcases operator_trichotomy hord x y hx hy with ⟨h1, h2, h3⟩ | ⟨h1, h2, h3⟩ | ⟨h1, h2, h3⟩ <;>
      rw [h1, h2, h3] <;> simp [bind, Except.bind, pure, Except.pure]
  · rcases Optional.wf_cases x hx with rfl | ⟨a, rfl⟩ <;>
      rcases Optional.wf_cases y hy with rfl | ⟨b, rfl⟩
    · simp [(operator_eq_lt_empty_empty ops).1]
    · rw [(operator_eq_lt_empty_value ops b).1]
      simp [Optional.ctor_default, Optional.ctor_value]
    · rw [(operator_eq_lt_empty_value ops a).2.2.1]
      simp [Optional.ctor_default, Optional.ctor_value]
    · rw [(operator_eq_lt_value_value ops a b).1]
      constructor
      · intro h1
        have h2 : ops.eq a b = true := by injection h1
        rw [(hord.eq_iff a b).mp h2]
      · intro h1
        have h2 : a = b := by
          simpa [Optional.ctor_value] using h1
        rw [(hord.eq_iff a b).mpr h2]

/-- The witness of C31: an empty `Optional<int>`, `Optional<int>(1)` and
`Optional<int>(2)`: empty `<` 1 and 1 `<` 2 give empty `<` 2, and 1 `<=` 2. -/
theorem C31_operators_strict_total_order_witness :
    operator_lt intOps Optional.ctor_default (Optional.ctor_value 2) = .ok true
    ∧ operator_le intOps Optional.ctor_default (Optional.ctor_value 1) = .ok true :=
  have h := C31_operators_strict_total_order Int intOps Optional.ctor_default
    (Optional.ctor_value 1) (Optional.ctor_value 2) intOps_strictTotal rfl rfl rfl
  ⟨h.2.1 rfl rfl, h.2.2.2.1.mpr (Or.inl rfl)⟩

/-- C32: for every `Optional` `x`, each of the twelve comparisons with `nullopt` returns
what the same comparison of `x` with a default-constructed `Optional` returns. -/
theorem C32_nullopt_as_empty (T : Type) (ops : TypeOps T) (x : Optional T) :
    operator_eq ops x Optional.ctor_default = .ok (operator_eq_ON x .nullopt)
    ∧ operator_eq ops Optional.ctor_default x = .ok (operator_eq_NO .nullopt x)
    ∧ operator_ne ops x Optional.ctor_default = .ok (operator_ne_ON x .nullopt)
    ∧ operator_ne ops Optional.ctor_default x = .ok (operator_ne_NO .nullopt x)
    ∧ operator_lt ops x Optional.ctor_default = .ok (operator_lt_ON x .nullopt)
    ∧ operator_lt ops Optional.ctor_default x = .ok (operator_lt_NO .nullopt x)
    ∧ operator_le ops x Optional.ctor_default = .ok (operator_le_ON x .nullopt)
    ∧ operator_le ops Optional.ctor_default x = .ok (operator_le_NO .nullopt x)
    ∧ operator_gt ops x Optional.ctor_default = .ok (operator_gt_ON x .nullopt)
    ∧ operator_gt ops Optional.ctor_default x = .ok (operator_gt_NO .nullopt x)
    ∧ operator_ge ops x Optional.ctor_default = .ok (operator_ge_ON x .nullopt)
    ∧ operator_ge ops Optional.ctor_default x = .ok (operator_ge_NO .nullopt x) := by
  rcases x with ⟨⟨i, s⟩⟩
  cases i <;>
    simp [operator_eq, operator_ne, operator_lt, operator_le, operator_gt, operator_ge,
      operator_eq_ON, operator_eq_NO, operator_ne_ON, operator_ne_NO, operator_lt_ON,
      operator_lt_NO, operator_le_ON, operator_le_NO, operator_gt_ON, operator_gt_NO,
      operator_ge_ON, operator_ge_NO, Optional.ctor_default, Optional.operator_bool,
      Optional.initialized, bind, Except.bind, pure, Except.pure]

end s3d
